import Mathlib

/-!
# ethereum-samples: the node-stack RPC demo and the keystore signing tool

Two independent programs are embedded here.

* `Standalone` follows `standalone/C3_Service.go`: a toy service with the RPC
  namespaces `foo` and `bar`, and a `main` that configures a node, starts it and
  calls the service over IPC, HTTP and WS.
* `Signmru` follows `swarm/mutable-resources/server-digest/signmru.go`: a command
  line tool that resolves a keyfile, decrypts it and signs a request.

Both `main` functions are sequences of library calls.  A library call whose code
is outside the repository is a field of a world record (what the call returns);
what the program does with the answers is translated statement by statement.
A run of a program is the list of its observable events, in order.
-/

/-- A Go string is a sequence of bytes; each byte is written as the `Char` with
that code point, so `len`, slicing and `strings.Contains` are list operations. -/
abbrev GoString := List Char

/-- An `error` value; `Option GoError` is a Go `error`, with `none` for `nil`. -/
structure GoError where
  msg : String
deriving DecidableEq, Repr

namespace Standalone

/-! ## Machine integers -/

/-- A value of Go type `int` of the given width: two's complement range. -/
def IsGoInt (bits : Nat) (n : Int) : Prop :=
  -(2 : Int) ^ (bits - 1) ≤ n ∧ n < (2 : Int) ^ (bits - 1)

instance (bits : Nat) (n : Int) : Decidable (IsGoInt bits n) := by
  unfold IsGoInt; infer_instance

/-- Arithmetic on `int` wraps around: the mathematical result is reduced modulo
`2 ^ bits` into the signed range. -/
def wrapInt (bits : Nat) (x : Int) : Int :=
  (x + (2 : Int) ^ (bits - 1)) % (2 : Int) ^ bits - (2 : Int) ^ (bits - 1)

/-! ## Constants (lines 13-18) -/

def msgCount : Nat := 5
def p2pDefaultPort : Nat := 30100
def datadirPrefix : GoString := ".datadir_".toList
def ipcName : GoString := ".demo.ipc".toList

/-- `fmt.Sprintf("./%s%d", datadirPrefix, port)`. -/
def datadir (port : Nat) : GoString :=
  "./".toList ++ datadirPrefix ++ (Nat.repr port).toList

/-! ## The service and its API objects (lines 32-96) -/

structure fooService where
  V : Int
deriving DecidableEq, Repr

def newFooService (v : Int) : fooService :=
  { V := v }

structure FooAPI where
  V : Int
deriving DecidableEq, Repr

def newFooAPI (v : Int) : FooAPI :=
  { V := v }

structure BarAPI where
deriving DecidableEq, Repr

/-- The `Service` field of an `rpc.API`: a pointer to one of the two API structs. -/
inductive ServiceObj where
  | foo (api : FooAPI)
  | bar (api : BarAPI)
deriving DecidableEq, Repr

/-- The fields of `rpc.API` that the program sets. -/
structure API where
  Namespace : GoString
  Version : GoString
  Service : ServiceObj
  Public : Bool
deriving DecidableEq, Repr

def fooService.APIs (self : fooService) : List API :=
  [ { Namespace := "foo".toList, Version := "0.42".toList,
      Service := .foo (newFooAPI self.V), Public := true },
    { Namespace := "bar".toList, Version := "0.666".toList,
      Service := .bar {}, Public := true } ]

def fooService.Start (_self : fooService) : Option GoError := none

def fooService.Stop (_self : fooService) : Option GoError := none

def FooAPI.GetNumber (api : FooAPI) : Int × Option GoError :=
  (api.V, none)

/-- `Double` computes `2 * n` in type `int`, whose width is `bits`. -/
def BarAPI.Double (bits : Nat) (_api : BarAPI) (n : Int) : Int × Option GoError :=
  (wrapInt bits (2 * n), none)

/-- The service constructor registered in `main` (lines 118-120). -/
def foosvc (_ctx : Unit) : fooService × Option GoError :=
  (newFooService 42, none)

/-! ### Calling the API objects repeatedly -/

/-- A method call on one of the API objects of a service. -/
inductive Invocation where
  | getNumber
  | double (n : Int)
deriving DecidableEq, Repr

/-- The API object registered under a namespace, if there is one. -/
def lookupAPI (apis : List API) (ns : GoString) : Option ServiceObj :=
  (apis.find? (fun a => a.Namespace = ns)).map (fun a => a.Service)

/-- One call on the objects exposed by `apis`: `GetNumber` goes to the object
registered as `foo`, `Double` to the one registered as `bar`.  Neither method
assigns to a field, so the objects are the same after the call. -/
def invoke (bits : Nat) (apis : List API) : Invocation → Option (Int × Option GoError)
  | .getNumber =>
    match lookupAPI apis "foo".toList with
    | some (.foo api) => some api.GetNumber
    | _ => none
  | .double n =>
    match lookupAPI apis "bar".toList with
    | some (.bar api) => some (api.Double bits n)
    | _ => none

/-- A sequence of calls, in order, on the same API objects. -/
def invokeAll (bits : Nat) (apis : List API) (calls : List Invocation) :
    List (Option (Int × Option GoError)) :=
  calls.map (invoke bits apis)

/-! ## The node library, as far as `main` uses it -/

inductive Transport where
  | ipc
  | http
  | ws
deriving DecidableEq, Repr

/-- The fields of `node.Config` that `main` assigns. -/
structure Config where
  P2PListenAddr : GoString
  IPCPath : GoString
  DataDir : GoString
  HTTPHost : GoString
  HTTPPort : Nat
  HTTPModules : List GoString
  WSHost : GoString
  WSPort : Nat
  WSModules : List GoString
deriving DecidableEq, Repr

/-- What the go-ethereum libraries answer to `main`.  `node.DefaultConfig` and the
default hosts and ports are constants of package `node`; `newErr`, `registerErr`
and `startErr` are the errors of `node.New`, `Register` and `Start`; `dial` tells
whether `rpc.Dial` returns a client for a transport; `serve` is the outcome of
`Client.Call` on a started node with the given configuration and registered API
objects (`none` for an error). -/
structure NodeWorld where
  intBits : Nat
  DefaultConfig : Config
  DefaultHTTPHost : GoString
  DefaultHTTPPort : Nat
  DefaultWSHost : GoString
  DefaultWSPort : Nat
  newErr : Config → Option GoError
  registerErr : Option GoError
  startErr : Config → Option GoError
  dial : Transport → Bool
  serve : Config → List API → Transport → GoString → List Int → Option Int

/-- What a run of the program does, as seen from outside. -/
inductive Event where
  | crit (msg : String)
  | info (msg : String) (key : String) (val : Option Int)
  | started
  | call (t : Transport) (method : GoString) (args : List Int) (result : Option Int)
  | stopped
  | nilDeref
  | exit (status : Nat)
deriving DecidableEq, Repr

/-- `log.Crit` writes the record and then calls `os.Exit(1)`. -/
def logCrit (msg : String) : List Event :=
  [.crit msg, .exit 1]

/-- The configuration assembled in lines 102-111. -/
def mainConfig (w : NodeWorld) : Config :=
  let cfg := w.DefaultConfig
  let cfg := { cfg with P2PListenAddr := ":".toList ++ (Nat.repr p2pDefaultPort).toList }
  let cfg := { cfg with IPCPath := ipcName }
  let cfg := { cfg with DataDir := datadir p2pDefaultPort }
  let cfg := { cfg with HTTPHost := w.DefaultHTTPHost }
  let cfg := { cfg with HTTPPort := w.DefaultHTTPPort }
  let cfg := { cfg with HTTPModules := cfg.HTTPModules ++ ["foo".toList, "bar".toList] }
  let cfg := { cfg with WSHost := w.DefaultWSHost }
  let cfg := { cfg with WSPort := w.DefaultWSPort }
  let cfg := { cfg with WSModules := cfg.WSModules ++ ["foo".toList] }
  cfg

/-- The API objects the started node serves: those of the service built by the
registered constructor. -/
def mainAPIs : List API :=
  (foosvc ()).1.APIs

/-- `client.Call(&result, method, args...)` followed by the rest of the program.
The error of `rpc.Dial` is overwritten without being looked at, so a failed dial
leaves a nil client and the call dereferences it. -/
def clientCall (w : NodeWorld) (t : Transport) (method : GoString) (args : List Int)
    (k : Option Int → List Event) : List Event :=
  if w.dial t then
    let r := w.serve (mainConfig w) mainAPIs t method args
    .call t method args r :: k r
  else
    [.nilDeref, .exit 2]

/-- Lines 170-188: the calls over WS and the shutdown. -/
def mainWS (w : NodeWorld) : List Event :=
  clientCall w .ws "foo_getNumber".toList [] fun r =>
    match r with
    | none => logCrit "WS RPC getnumber failed"
    | some startnumber =>
      .info "WS" "getnumber" (some startnumber) ::
      clientCall w .ws "bar_double".toList [startnumber] fun r =>
        match r with
        | some _ => logCrit "WS RPC double should have failed!"
        | none => [.info "WS (expected fail)" "err" none, .stopped, .exit 0]

/-- Lines 153-168: the calls over HTTP. -/
def mainHTTP (w : NodeWorld) : List Event :=
  clientCall w .http "foo_getNumber".toList [] fun r =>
    match r with
    | none => logCrit "HTTP RPC getnumber failed"
    | some startnumber =>
      .info "HTTP" "getnumber" (some startnumber) ::
      clientCall w .http "bar_double".toList [startnumber] fun r =>
        match r with
        | none => logCrit "HTTP RPC double failed"
        | some resultnumber => .info "HTTP" "double" (some resultnumber) :: mainWS w

/-- Lines 136-151: the calls over IPC. -/
def mainIPC (w : NodeWorld) : List Event :=
  clientCall w .ipc "foo_getNumber".toList [] fun r =>
    match r with
    | none => logCrit "IPC RPC getnumber failed"
    | some startnumber =>
      .info "IPC" "getnumber" (some startnumber) ::
      clientCall w .ipc "bar_double".toList [startnumber] fun r =>
        match r with
        | none => logCrit "IPC RPC double failed"
        | some resultnumber => .info "IPC" "double" (some resultnumber) :: mainHTTP w

/-- Function `main` (lines 98-189). -/
def main (w : NodeWorld) : List Event :=
  match w.newErr (mainConfig w) with
  | some _ => logCrit "ServiceNode create fail"
  | none =>
    match w.registerErr with
    | some _ => logCrit "Register service in ServiceNode failed"
    | none =>
      match w.startErr (mainConfig w) with
      | some _ => logCrit "ServiceNode start failed"
      | none => .started :: mainIPC w

/-! ## The RPC layer of the claim on namespace visibility -/

/-- The namespace of a method name: the text before the first underscore, and the
rest after it. -/
def splitMethod : GoString → GoString × GoString
  | [] => ([], [])
  | c :: cs => if c = '_' then ([], cs) else ((splitMethod cs).1.cons c, (splitMethod cs).2)

/-- The result of a registered method on its arguments, when the method exists
and the number of arguments fits.  Method names start with a lower-case letter on
the wire. -/
def dispatch (bits : Nat) (apis : List API) (ns name : GoString) (args : List Int) :
    Option Int :=
  match lookupAPI apis ns, args with
  | some (.foo api), [] =>
    if name = "getNumber".toList then some api.GetNumber.1 else none
  | some (.bar api), [n] =>
    if name = "double".toList then some (api.Double bits n).1 else none
  | _, _ => none

/-- The namespaces reachable over a transport: every registered one over IPC, the
configured module list over HTTP and over WS. -/
def modulesOf (cfg : Config) (apis : List API) : Transport → List GoString
  | .ipc => apis.map (fun a => a.Namespace)
  | .http => cfg.HTTPModules
  | .ws => cfg.WSModules

/-- Modelled from the spec: the RPC server of the node library, which is not part
of this repository.  A call succeeds iff the namespace of the method is in the
module list of the transport, and a call that succeeds returns the result of the
registered method. -/
def rpcServe (bits : Nat) (cfg : Config) (apis : List API) (t : Transport)
    (method : GoString) (args : List Int) : Option Int :=
  if (splitMethod method).1 ∈ modulesOf cfg apis t then
    dispatch bits apis (splitMethod method).1 (splitMethod method).2 args
  else
    none

/-! ## Notions used to state the properties of `main` -/

/-- The node was created, the service registered and the node started. -/
def NodeUp (w : NodeWorld) : Prop :=
  w.newErr (mainConfig w) = none ∧ w.registerErr = none ∧ w.startErr (mainConfig w) = none

/-- The outcome of a call of `main` on the started node. -/
def outcome (w : NodeWorld) (t : Transport) (method : String) (args : List Int) : Option Int :=
  w.serve (mainConfig w) mainAPIs t method.toList args

/-- The six calls have the outcomes the script expects: the first five succeed
and `bar_double` over WS fails. -/
def ScriptAsExpected (w : NodeWorld) : Prop :=
  ∃ a b c d e : Int,
    outcome w .ipc "foo_getNumber" [] = some a ∧ outcome w .ipc "bar_double" [a] = some b ∧
    outcome w .http "foo_getNumber" [] = some c ∧ outcome w .http "bar_double" [c] = some d ∧
    outcome w .ws "foo_getNumber" [] = some e ∧ outcome w .ws "bar_double" [e] = none

/-! ## Sample worlds -/

/-- The module lists of `node.DefaultConfig` in go-ethereum: `net` and `web3`. -/
def sampleDefaultConfig : Config :=
  { P2PListenAddr := ":30303".toList, IPCPath := "geth.ipc".toList, DataDir := [],
    HTTPHost := [], HTTPPort := 8545, HTTPModules := ["net".toList, "web3".toList],
    WSHost := [], WSPort := 8546, WSModules := ["net".toList, "web3".toList] }

/-- A world in which the node comes up and every dial returns a client; the
outcome of the calls is left open. -/
def sampleWorld (serve : Config → List API → Transport → GoString → List Int → Option Int) :
    NodeWorld :=
  { intBits := 64
    DefaultConfig := sampleDefaultConfig
    DefaultHTTPHost := "localhost".toList
    DefaultHTTPPort := 8545
    DefaultWSHost := "localhost".toList
    DefaultWSPort := 8546
    newErr := fun _ => none
    registerErr := none
    startErr := fun _ => none
    dial := fun _ => true
    serve := serve }

/-- The calls are answered by the RPC layer of the namespace-visibility claim. -/
def worldRPC : NodeWorld :=
  sampleWorld (rpcServe 64)

/-- Every call succeeds, also `bar_double` over WS. -/
def worldAllSucceed : NodeWorld :=
  sampleWorld (fun _ _ _ _ _ => some 1)

/-- The first call over IPC returns an error. -/
def worldIPCFails : NodeWorld :=
  sampleWorld (fun _ _ _ _ _ => none)

end Standalone

namespace Signmru

/-! ## Library functions on strings -/

/-- `strings.Contains(s, substr)`: `substr` occurs in `s` as a contiguous run of
bytes; the empty string occurs in every string. -/
def stringsContains : GoString → GoString → Bool
  | [], substr => substr.isEmpty
  | c :: cs, substr => substr.isPrefixOf (c :: cs) || stringsContains cs substr

/-- The slice expression `s[n:]`, which panics when `n` exceeds `len(s)`. -/
def sliceFrom (s : GoString) (n : Nat) : Option GoString :=
  if n ≤ s.length then some (s.drop n) else none

/-- The property of `hexutil.Decode` assumed of its input when it returns no
error: the prefix `0x` or `0X`, then an even number of hexadecimal digits. -/
def IsHexInput : GoString → Bool
  | '0' :: x :: digits =>
    (x = 'x' || x = 'X') && digits.length % 2 = 0 &&
      digits.all (fun c => c.isDigit || ('a' ≤ c && c ≤ 'f') || ('A' ≤ c && c ≤ 'F'))
  | _ => false

/-! ## Command line flags (lines 41-47 and 71)

Package `flag` of the standard library parses the arguments.  The program
defines the string flags `d` and `p` and the boolean flags `h` and `v`. -/

structure Flags where
  dir : GoString
  help : Bool
  debug : Bool
  passfile : GoString
  args : List GoString
deriving DecidableEq, Repr

inductive ParseResult where
  | parsed (fl : Flags)
  | errHelp
  | failed
deriving DecidableEq, Repr

/-- `strconv.ParseBool`, which sets a boolean flag written `-name=value`. -/
def parseBool (s : GoString) : Option Bool :=
  if s ∈ ["1".toList, "t".toList, "T".toList, "TRUE".toList, "true".toList, "True".toList] then
    some true
  else if s ∈ ["0".toList, "f".toList, "F".toList, "FALSE".toList, "false".toList,
      "False".toList] then
    some false
  else
    none

/-- The name and the value of a flag written `name=value`; the first byte of the
name is not looked at. -/
def splitValue : GoString → GoString × Option GoString
  | [] => ([], none)
  | c :: rest =>
    match rest.span (fun b => b ≠ '=') with
    | (name, '=' :: value) => (c :: name, some value)
    | (name, _) => (c :: name, none)

/-- `flag.Parse()` on the flags of this program: flags are read up to the first
argument that is not a flag or up to `--`; an undefined flag, a malformed one or
a missing value is an error, and `-help` asks for the usage text. -/
def flagParse (fl : Flags) : List GoString → ParseResult
  | [] => .parsed { fl with args := [] }
  | s :: rest =>
    match s with
    | '-' :: c :: cs =>
      let name := if c = '-' then cs else c :: cs
      if c = '-' ∧ cs = [] then
        .parsed { fl with args := rest }
      else if name.head? = some '-' ∨ name.head? = some '=' ∨ name = [] then
        .failed
      else
        match splitValue name with
        | (['h'], some v) =>
          match parseBool v with
          | some b => flagParse { fl with help := b } rest
          | none => .failed
        | (['h'], none) => flagParse { fl with help := true } rest
        | (['v'], some v) =>
          match parseBool v with
          | some b => flagParse { fl with debug := b } rest
          | none => .failed
        | (['v'], none) => flagParse { fl with debug := true } rest
        | (['d'], some v) => flagParse { fl with dir := v } rest
        | (['d'], none) =>
          match rest with
          | v :: rest2 => flagParse { fl with dir := v } rest2
          | [] => .failed
        | (['p'], some v) => flagParse { fl with passfile := v } rest
        | (['p'], none) =>
          match rest with
          | v :: rest2 => flagParse { fl with passfile := v } rest2
          | [] => .failed
        | (['h', 'e', 'l', 'p'], _) => .errHelp
        | _ => .failed
    | _ => .parsed { fl with args := s :: rest }

/-- `flag.Arg(i)`: the i-th remaining argument, or the empty string. -/
def Flags.Arg (fl : Flags) (i : Nat) : GoString :=
  fl.args.getD i []

/-! ## The operating system and the libraries, as far as `main` uses them -/

/-- What the environment answers.  `args` is the command line after the program
name.  An `Option` result is `none` when the call returns an error: `userCurrent`
is the home directory of `user.Current()`, `stat` tells whether the path of
`os.Stat` is a directory, `readDir` lists the entry names of a directory in the
order `ioutil.ReadDir` returns them, `readFile` is `ioutil.ReadFile`,
`readPassword` is `terminal.ReadPassword`.  `hexutilDecode` tells whether
`hexutil.Decode` returns no error.  `helpStatus` is the status with which
`flag.Parse` leaves the process on `-help`.  The remaining fields are the calls
into `keystore`, `crypto` and `mru`; `sign` is the request after
`request.Sign(signer)`, whose error the program does not look at. -/
structure World (Key Request : Type) where
  userCurrent : Option GoString
  args : List GoString
  helpStatus : Nat
  stat : GoString → Option Bool
  readDir : GoString → Option (List GoString)
  readFile : GoString → Option GoString
  readPassword : Option GoString
  hexutilDecode : GoString → Bool
  decryptKey : GoString → GoString → Option Key
  privkeyHex : Key → GoString
  hexToECDSA : GoString → Bool
  unmarshalJSON : GoString → Option Request
  marshalJSON : Request → Except GoError GoString
  getDigest : Request → Except GoError GoString
  sign : Request → Key → Request

inductive Lvl where
  | error
  | info
  | debug
deriving DecidableEq, Repr

/-- What a run of the program does, as seen from outside.  `log` is a record
handed to the logger of package `log`, whose handler (lines 78-83) writes to
standard error, and `logErr` is such a record, of level error, whose message is
the text of an error value; `stdout` is text written to standard output;
`flagError` and `printDefaults` are the texts package `flag` writes to standard
error. -/
inductive Event where
  | log (lvl : Lvl) (msg : String)
  | logErr (err : GoError)
  | stdout (text : GoString)
  | flagError
  | printDefaults
  | stat (path : GoString)
  | readDir (path : GoString)
  | readFile (path : GoString)
  | readPassword
  | decryptKey (keyjson : GoString) (pass : GoString)
  | sign
  | sliceOutOfRange
  | exit (status : Nat)
deriving DecidableEq, Repr

/-- The text of `flag.Usage` (lines 49-68). -/
def usageText : GoString := "
******************************
* WARNING! WARNING! WARNING! *
******************************

this program will output your private key in hex format to the terminal. Your private key should be kept secret, at the risk of losing all funds within it, and possibly any accounts derived from it.

Some recommended precautions:
* Make sure noone is looking over your shoulder when you run this program.
* Never store your private key on a digital device with insufficient encryption
* Only use this tool on an airgapped machine

The author of this application assumes no warranty or liability.

----
Usage: ethexport [flags] <account hex|keyfile>\")

If argument is account hex, the keystore subdir of the datadir will be searched for a matching account
If argument is keyfile, the -d flag will be ignored
".toList

/-- `flag.Usage` (lines 48-70): the text goes to standard output with
`fmt.Println`, the flag defaults to the output of package `flag`. -/
def usage : List Event :=
  [.stdout (usageText ++ ['\n']), .printDefaults]

/-- The text a run writes to standard output. -/
def stdoutOf : List Event → GoString
  | [] => []
  | .stdout text :: es => text ++ stdoutOf es
  | _ :: es => stdoutOf es

/-- The exit status of a run: the status of its `exit` event.  The process ends
there, so a run has no event after it. -/
def exitStatus : List Event → Option Nat
  | [] => none
  | .exit n :: _ => some n
  | _ :: es => exitStatus es

/-! ## Function `main` -/

/-- Lines 141-145: the loop over the entries of the keystore directory.  The
result is the value of `keyfile` after the loop, `none` when the slice
expression `g_arg[2:]` panics. -/
def scanKeystore (keystoredir g_arg : GoString) : List GoString → GoString → Option GoString
  | [], keyfile => some keyfile
  | f :: dircontents, keyfile =>
    match sliceFrom g_arg 2 with
    | none => none
    | some sub =>
      if stringsContains f sub then
        scanKeystore keystoredir g_arg dircontents (keystoredir ++ "/".toList ++ f)
      else
        scanKeystore keystoredir g_arg dircontents keyfile

/-- Lines 168-217: decrypt the keyfile content `j` with the passphrase, check the
key, read and parse the request, sign it and print it. -/
def decryptAndSign {Key Request : Type} (w : World Key Request) (g_file j g_pass : GoString) :
    List Event :=
  .log .info "decrypting keyfile... with %s" :: .decryptKey j g_pass ::
  match w.decryptKey j g_pass with
  | none => [.log .error "key decrypt failed", .exit 1]
  | some key =>
    .log .debug "priv" ::
    if !w.hexToECDSA (w.privkeyHex key) then
      [.log .error "internal privkey conversion error", .exit 1]
    else
      .log .info "ok" :: .readFile g_file ::
      match w.readFile g_file with
      | none => [.log .error "resultjson fail: ", .exit 1]
      | some requestJson =>
        match w.unmarshalJSON requestJson with
        | none => [.log .error "unmarshaljson fail", .exit 1]
        | some request =>
          match w.marshalJSON request with
          | .error err => [.logErr err, .exit 1]
          | .ok _ =>
            .log .info "parsed requestjson" ::
            match w.getDigest request with
            | .error err => [.logErr err, .exit 1]
            | .ok _ =>
              .log .info "digest" :: .sign ::
              match w.marshalJSON (w.sign request key) with
              | .error err => [.logErr err, .exit 1]
              | .ok resultJson => [.stdout (resultJson ++ ['\n']), .exit 0]

/-- Lines 153-167, then the rest of the program: read the keyfile and, when no
passphrase came from a password file, prompt for one on standard output and
read it from the terminal. -/
def openAndSign {Key Request : Type} (w : World Key Request) (g_pass g_file keyfile : GoString) :
    List Event :=
  .log .info "opening account" :: .readFile keyfile ::
  match w.readFile keyfile with
  | none => [.log .error "cannot read file", .exit 1]
  | some j =>
    if g_pass = [] then
      .stdout "pass:".toList :: .readPassword ::
      match w.readPassword with
      | none => [.log .error "read password fail", .exit 1]
      | some bytePassword => decryptAndSign w g_file j bytePassword
    else
      decryptAndSign w g_file j g_pass

/-- Lines 148-151, then the rest of the program. -/
def withKeyfile {Key Request : Type} (w : World Key Request) (g_pass g_file keyfile : GoString) :
    List Event :=
  if keyfile = [] then
    [.log .error "Account not found", .exit 1]
  else
    openAndSign w g_pass g_file keyfile

/-- Lines 141-151, then the rest of the program: the loop over the listing and
the test of its result. -/
def scanAndSign {Key Request : Type} (w : World Key Request)
    (keystoredir g_pass g_arg g_file : GoString) (dircontents : List GoString) : List Event :=
  match scanKeystore keystoredir g_arg dircontents [] with
  | none => [.sliceOutOfRange, .exit 2]
  | some keyfile => withKeyfile w g_pass g_file keyfile

/-- Lines 110-146, then the rest of the program: the first argument is a keyfile
when `hexutil.Decode` returns an error for it, and an account otherwise.  An
error of `ioutil.ReadDir` is logged and the loop runs over the nil listing. -/
def resolveKey {Key Request : Type} (w : World Key Request) (g_dir g_pass g_arg g_file : GoString) :
    List Event :=
  if !w.hexutilDecode g_arg then
    .log .debug "input is keyfile" :: .stat g_arg ::
    match w.stat g_arg with
    | none => [.log .error "Keyfile not found", .exit 1]
    | some true => [.log .error "Keyfile argument is a directory", .exit 1]
    | some false => withKeyfile w g_pass g_file g_arg
  else
    .log .debug "input is account hex" :: .stat g_dir ::
    match w.stat g_dir with
    | none => [.log .error "Keystore not found", .exit 1]
    | some false => [.log .error "Keystore is not a directory", .exit 1]
    | some true =>
      .log .debug "checking keystore dir" :: .readDir (g_dir ++ "/keystore".toList) ::
      match w.readDir (g_dir ++ "/keystore".toList) with
      | none =>
        .log .error "Can't open keystore dir: %v" ::
          scanAndSign w (g_dir ++ "/keystore".toList) g_pass g_arg g_file []
      | some dircontents =>
        scanAndSign w (g_dir ++ "/keystore".toList) g_pass g_arg g_file dircontents

/-- Lines 98-108, then the rest of the program: both positional arguments must
be given. -/
def checkArgs {Key Request : Type} (w : World Key Request) (g_dir g_pass : GoString)
    (fl : Flags) : List Event :=
  if fl.Arg 0 = [] then
    [.log .error "Account or keyfile must be specified", .exit 1]
  else if fl.Arg 1 = [] then
    [.log .error "json request file must be specified", .exit 1]
  else
    resolveKey w g_dir g_pass (fl.Arg 0) (fl.Arg 1)

/-- The data directory after lines 85-87. -/
def datadirOf (defaultdatadir : GoString) (fl : Flags) : GoString :=
  if fl.dir = [] then defaultdatadir else fl.dir

/-- Lines 73-96, then the rest of the program, on the parsed flags. -/
def mainParsed {Key Request : Type} (w : World Key Request) (defaultdatadir : GoString)
    (fl : Flags) : List Event :=
  if fl.help then
    usage ++ [.exit 0]
  else if fl.passfile ≠ [] then
    .readFile fl.passfile ::
    match w.readFile fl.passfile with
    | none => [.log .error "password file %s doesn't exist", .exit 1]
    | some pass => checkArgs w (datadirOf defaultdatadir fl) pass fl
  else
    checkArgs w (datadirOf defaultdatadir fl) [] fl

/-- The flags before parsing (lines 43-46): the default values. -/
def flagDefaults (defaultdatadir : GoString) : Flags :=
  { dir := defaultdatadir, help := false, debug := false, passfile := [], args := [] }

/-- Function `main` (lines 33-218). -/
def main {Key Request : Type} (w : World Key Request) : List Event :=
  match w.userCurrent with
  | none => [.log .error "Could not get user info to resolve homedir", .exit 1]
  | some home =>
    let defaultdatadir := home ++ "/.ethereum".toList
    match flagParse (flagDefaults defaultdatadir) w.args with
    | .failed => .flagError :: usage ++ [.exit 2]
    | .errHelp => usage ++ [.exit w.helpStatus]
    | .parsed fl => mainParsed w defaultdatadir fl

/-! ## Notions used to state the properties of `main` -/

/-- The text `fmt.Printf("pass:")` writes when no passphrase came from a file. -/
def promptText (g_pass : GoString) : GoString :=
  if g_pass = [] then "pass:".toList else []

/-- The text `resultJson` is the serialized request of file `g_file`, signed with
the key decrypted from file `keyfile`. -/
def Signed {Key Request : Type} (w : World Key Request) (g_file keyfile resultJson : GoString) :
    Prop :=
  ∃ (j pass : GoString) (key : Key) (requestJson : GoString) (request : Request),
    w.readFile keyfile = some j ∧ w.decryptKey j pass = some key ∧
    w.readFile g_file = some requestJson ∧ w.unmarshalJSON requestJson = some request ∧
    w.marshalJSON (w.sign request key) = .ok resultJson

/-- The passphrase the program holds after lines 89-96 is `g_pass`: empty
without `-p`, the content of the password file otherwise. -/
def PassFromFile {Key Request : Type} (w : World Key Request) (fl : Flags)
    (g_pass : GoString) : Prop :=
  if fl.passfile = [] then g_pass = [] else w.readFile fl.passfile = some g_pass

instance {Key Request : Type} (w : World Key Request) (fl : Flags) (g_pass : GoString) :
    Decidable (PassFromFile w fl g_pass) := by
  unfold PassFromFile
  infer_instance

/-- The command line asks for the usage text: `-h` is set, or `-help` is given. -/
def HelpRequested {Key Request : Type} (w : World Key Request) : Prop :=
  ∃ home, w.userCurrent = some home ∧
    (flagParse (flagDefaults (home ++ "/.ethereum".toList)) w.args = .errHelp ∨
      ∃ fl, flagParse (flagDefaults (home ++ "/.ethereum".toList)) w.args = .parsed fl ∧
        fl.help = true)

/-- The flags parse, `-h` is not set, and the first or the second positional
argument is missing or empty. -/
def MissingPositional {Key Request : Type} (w : World Key Request) (home : GoString)
    (fl : Flags) : Prop :=
  flagParse (flagDefaults (home ++ "/.ethereum".toList)) w.args = .parsed fl ∧
  fl.help = false ∧ (fl.Arg 0 = [] ∨ fl.Arg 1 = [])

/-- The events of lines 89-96 when the password file can be read. -/
def passEvents (fl : Flags) : List Event :=
  if fl.passfile = [] then [] else [.readFile fl.passfile]

/-- The run gets as far as line 110: the home directory is known, the flags
parse to `fl` without `-h`, the password file (if any) is read and gives
`g_pass`, and both positional arguments are present. -/
def ReachesResolution {Key Request : Type} (w : World Key Request) (home : GoString)
    (fl : Flags) (g_pass : GoString) : Prop :=
  w.userCurrent = some home ∧
  flagParse (flagDefaults (home ++ "/.ethereum".toList)) w.args = .parsed fl ∧
  fl.help = false ∧ PassFromFile w fl g_pass ∧ fl.Arg 0 ≠ [] ∧ fl.Arg 1 ≠ []

/-- The keystore holds no entry for the account: the data directory is missing
or not a directory, or its `keystore` subdirectory cannot be listed, or no entry
name contains the text of `g_arg` after its two-byte prefix. -/
def NoKeystoreMatch {Key Request : Type} (w : World Key Request) (g_dir g_arg : GoString) :
    Prop :=
  w.stat g_dir ≠ some true ∨ w.readDir (g_dir ++ "/keystore".toList) = none ∨
  ∃ dircontents, w.readDir (g_dir ++ "/keystore".toList) = some dircontents ∧
    ∀ f ∈ dircontents, stringsContains f (g_arg.drop 2) = false

/-- What an event of `openAndSign` can be: no access to the data directory, no
out-of-range slice, no report of a missing account; files read are the keyfile
and the request file; what is decrypted is the content of the keyfile. -/
def OpenEvent {Key Request : Type} (w : World Key Request) (g_file keyfile : GoString) :
    Event → Prop
  | .stat _ => False
  | .readDir _ => False
  | .sliceOutOfRange => False
  | .flagError => False
  | .printDefaults => False
  | .log _ msg => msg ≠ "Account not found"
  | .readFile p => p = keyfile ∨ p = g_file
  | .decryptKey j _ => w.readFile keyfile = some j
  | _ => True

/-! ## Sample worlds -/

/-- A home directory with a keystore of three entries, two of them for the
account `aabbcc`; a keyfile, a request file and a password file in the working
directory.  Keys are numbers and requests are their JSON text; signing appends
a signature field. -/
def sampleWorld (args : List GoString) : World Nat GoString :=
  { userCurrent := some "/home/u".toList
    args := args
    helpStatus := 2
    stat := fun p =>
      if p = "/home/u/.ethereum".toList then some true
      else if p = "key.json".toList then some false
      else if p = "keys".toList then some true
      else none
    readDir := fun p =>
      if p = "/home/u/.ethereum/keystore".toList then
        some ["UTC--1--aabbcc".toList, "UTC--2--aabbcc.bak".toList, "UTC--3--ddeeff".toList]
      else none
    readFile := fun p =>
      if p = "pw".toList then some "secret".toList
      else if p = "req.json".toList then some "[1]".toList
      else if p = "missing".toList then none
      else some p
    readPassword := some "typed".toList
    hexutilDecode := IsHexInput
    decryptKey := fun _ _ => some 7
    privkeyHex := fun _ => "07".toList
    hexToECDSA := fun _ => true
    unmarshalJSON := fun s => some s
    marshalJSON := fun r => .ok r
    getDigest := fun _ => .ok "d".toList
    sign := fun r _ => r ++ "+sig".toList }

/-- The flags of a command line of `sampleWorld` without `-d`, `-h` and `-v`. -/
def sampleFlags (passfile : GoString) (args : List GoString) : Flags :=
  { dir := "/home/u/.ethereum".toList, help := false, debug := false, passfile := passfile,
    args := args }

/-- The listing of the keystore directory of `sampleWorld`. -/
def sampleListing : List GoString :=
  ["UTC--1--aabbcc".toList, "UTC--2--aabbcc.bak".toList, "UTC--3--ddeeff".toList]

/-- An account with two entries in the keystore. -/
def worldTwoMatches : World Nat GoString :=
  sampleWorld ["0xaabbcc".toList, "req.json".toList]

/-- A keyfile given by its path, the passphrase in a file. -/
def worldKeyfile : World Nat GoString :=
  sampleWorld ["-p".toList, "pw".toList, "key.json".toList, "req.json".toList]

/-- An account without an entry in the keystore. -/
def worldNoMatch : World Nat GoString :=
  sampleWorld ["0x112233".toList, "req.json".toList]

/-- The request file is not given. -/
def worldMissingRequest : World Nat GoString :=
  sampleWorld ["0xaabbcc".toList]

/-- An undefined flag and no positional argument. -/
def worldUndefinedFlag : World Nat GoString :=
  sampleWorld ["-x".toList]

/-- A keyfile given by its path, the passphrase typed at the prompt. -/
def worldPrompt : World Nat GoString :=
  sampleWorld ["key.json".toList, "req.json".toList]

/-- An account with one entry in the keystore, the passphrase in a file. -/
def worldPassfile : World Nat GoString :=
  sampleWorld ["-p".toList, "pw".toList, "0xddeeff".toList, "req.json".toList]

/-- The bare prefix as account. -/
def worldBarePrefix : World Nat GoString :=
  sampleWorld ["0x".toList, "req.json".toList]

end Signmru

namespace Standalone

/-! ## Theorems on the service -/

theorem wrapInt_of_range (bits : Nat) (hbits : bits = 32 ∨ bits = 64) (x : Int)
    (hx : IsGoInt bits x) : wrapInt bits x = x := by
  unfold IsGoInt at hx
  unfold wrapInt
  rcases hbits with h | h <;> subst h <;> norm_num at hx ⊢ <;> omega

theorem wrapInt_isGoInt (bits : Nat) (hbits : bits = 32 ∨ bits = 64) (x : Int) :
    IsGoInt bits (wrapInt bits x) := by
  unfold IsGoInt wrapInt
  rcases hbits with h | h <;> subst h <;> norm_num <;> omega

theorem wrapInt_emod (bits : Nat) (hbits : bits = 32 ∨ bits = 64) (x : Int) :
    wrapInt bits x % (2 : Int) ^ bits = x % (2 : Int) ^ bits := by
  unfold wrapInt
  rcases hbits with h | h <;> subst h <;> norm_num <;> omega

/-- C1, as amended: on a 32-bit or 64-bit `int`, `Double` never returns an error,
its result is the `int` congruent to `2 * n` modulo `2 ^ bits`, and the result is
exactly `2 * n` if and only if `2 * n` is itself representable in `int`. -/
theorem double_wraps (bits : Nat) (hbits : bits = 32 ∨ bits = 64) (api : BarAPI) (n : Int) :
    (api.Double bits n).2 = none ∧
    IsGoInt bits (api.Double bits n).1 ∧
    (api.Double bits n).1 % (2 : Int) ^ bits = (2 * n) % (2 : Int) ^ bits ∧
    ((api.Double bits n).1 = 2 * n ↔ IsGoInt bits (2 * n)) := by
  refine ⟨rfl, wrapInt_isGoInt bits hbits _, wrapInt_emod bits hbits _, ?_⟩
  constructor
  · intro h
    have := wrapInt_isGoInt bits hbits (2 * n)
    simp only [BarAPI.Double] at h
    rwa [h] at this
  · intro h
    exact wrapInt_of_range bits hbits _ h

/-- An instance of C1, as amended: doubling -21 on a 64-bit `int`. -/
theorem double_wraps_witness :
    (BarAPI.Double 64 {} (-21)).2 = none ∧
    IsGoInt 64 (BarAPI.Double 64 {} (-21)).1 ∧
    (BarAPI.Double 64 {} (-21)).1 % (2 : Int) ^ 64 = (2 * (-21)) % (2 : Int) ^ 64 ∧
    ((BarAPI.Double 64 {} (-21)).1 = 2 * (-21) ↔ IsGoInt 64 (2 * (-21))) :=
  double_wraps 64 (Or.inr rfl) {} (-21)

/-- C1, as stated, fails: `2 ^ 62` is an `int` on a 64-bit platform, and `Double`
returns `-2 ^ 63` for it, which is not twice the argument. -/
theorem double_overflow_counterexample :
    IsGoInt 64 (2 ^ 62) ∧
    BarAPI.Double 64 {} (2 ^ 62) = (-2 ^ 63, none) ∧
    (BarAPI.Double 64 {} (2 ^ 62)).1 ≠ 2 * 2 ^ 62 := by
  decide

/-- C2: the `foo` entry of `APIs()` of the service built by `newFooService v` is an
API object whose `GetNumber` returns `(v, nil)`; in any sequence of `GetNumber`
and `Double` calls on the exposed objects every `GetNumber` call returns
`(v, nil)`; and the constructor registered in `main` builds the service with 42. -/
theorem getNumber_fixed (bits : Nat) (v : Int) (calls : List Invocation) (i : Nat)
    (hi : calls[i]? = some Invocation.getNumber) :
    (∃ api, lookupAPI (newFooService v).APIs "foo".toList = some (.foo api) ∧
      api.GetNumber = (v, none)) ∧
    (invokeAll bits (newFooService v).APIs calls)[i]? = some (some (v, none)) ∧
    foosvc () = (newFooService 42, none) ∧
    (invokeAll bits (foosvc ()).1.APIs calls)[i]? = some (some (42, none)) := by
  have hfoo : ∀ u : Int, invoke bits (newFooService u).APIs .getNumber = some (u, none) := by
    intro u
    rfl
  refine ⟨⟨newFooAPI v, rfl, rfl⟩, ?_, rfl, ?_⟩
  · simp [invokeAll, List.getElem?_map, hi, hfoo]
  · simp [invokeAll, List.getElem?_map, hi, foosvc, hfoo]

/-- An instance of C2: the fourth call of a mixed sequence on a service built
with 7. -/
theorem getNumber_fixed_witness :
    (invokeAll 64 (newFooService 7).APIs
      [.double 3, .getNumber, .double (-1), .getNumber])[3]? = some (some (7, none)) :=
  (getNumber_fixed 64 7 [.double 3, .getNumber, .double (-1), .getNumber] 3 rfl).2.1

/-! ## Theorems on `main` -/

theorem mainWS_stopped (w : NodeWorld) (hd : w.dial .ws = true) :
    Event.stopped ∈ mainWS w ↔
      ∃ e, outcome w .ws "foo_getNumber" [] = some e ∧ outcome w .ws "bar_double" [e] = none := by
  unfold mainWS clientCall outcome
  simp only [hd, if_true]
  generalize "foo_getNumber".toList = m1
  generalize "bar_double".toList = m2
  cases h1 : w.serve (mainConfig w) mainAPIs .ws m1 [] with
  | none => simp [logCrit]
  | some e =>
    cases h2 : w.serve (mainConfig w) mainAPIs .ws m2 [e] with
    | none => simp [h2]
    | some x => simp [logCrit, h2]

theorem mainHTTP_stopped (w : NodeWorld) (hd : ∀ t, w.dial t = true) :
    Event.stopped ∈ mainHTTP w ↔
      ∃ c d, outcome w .http "foo_getNumber" [] = some c ∧
        outcome w .http "bar_double" [c] = some d ∧
        ∃ e, outcome w .ws "foo_getNumber" [] = some e ∧ outcome w .ws "bar_double" [e] = none := by
  unfold mainHTTP clientCall
  simp only [hd, if_true]
  generalize hS : (∃ e, outcome w .ws "foo_getNumber" [] = some e ∧
    outcome w .ws "bar_double" [e] = none) = S
  have hws : Event.stopped ∈ mainWS w ↔ S := hS ▸ mainWS_stopped w (hd .ws)
  unfold outcome
  generalize "foo_getNumber".toList = m1
  generalize "bar_double".toList = m2
  cases h1 : w.serve (mainConfig w) mainAPIs .http m1 [] with
  | none => simp [logCrit]
  | some c =>
    cases h2 : w.serve (mainConfig w) mainAPIs .http m2 [c] with
    | none => simp [logCrit, h2]
    | some d => simp [hws, h2]

theorem mainIPC_stopped (w : NodeWorld) (hd : ∀ t, w.dial t = true) :
    Event.stopped ∈ mainIPC w ↔ ScriptAsExpected w := by
  have hS : ScriptAsExpected w ↔ ∃ a b, outcome w .ipc "foo_getNumber" [] = some a ∧
      outcome w .ipc "bar_double" [a] = some b ∧
      ∃ c d, outcome w .http "foo_getNumber" [] = some c ∧
        outcome w .http "bar_double" [c] = some d ∧
        ∃ e, outcome w .ws "foo_getNumber" [] = some e ∧
          outcome w .ws "bar_double" [e] = none := by
    constructor
    · rintro ⟨a, b, c, d, e, h1, h2, h3, h4, h5, h6⟩
      exact ⟨a, b, h1, h2, c, d, h3, h4, e, h5, h6⟩
    · rintro ⟨a, b, h1, h2, c, d, h3, h4, e, h5, h6⟩
      exact ⟨a, b, c, d, e, h1, h2, h3, h4, h5, h6⟩
  rw [hS]
  unfold mainIPC clientCall
  simp only [hd, if_true]
  generalize hT : (∃ c d, outcome w .http "foo_getNumber" [] = some c ∧
        outcome w .http "bar_double" [c] = some d ∧
        ∃ e, outcome w .ws "foo_getNumber" [] = some e ∧
          outcome w .ws "bar_double" [e] = none) = T
  have hhttp : Event.stopped ∈ mainHTTP w ↔ T := hT ▸ mainHTTP_stopped w hd
  unfold outcome
  generalize "foo_getNumber".toList = m1
  generalize "bar_double".toList = m2
  cases h1 : w.serve (mainConfig w) mainAPIs .ipc m1 [] with
  | none => simp [logCrit]
  | some a =>
    cases h2 : w.serve (mainConfig w) mainAPIs .ipc m2 [a] with
    | none => simp [logCrit, h2]
    | some b => simp [hhttp, h2]

theorem mainWS_last (w : NodeWorld) (hd : w.dial .ws = true) :
    Event.stopped ∈ mainWS w ∨ (mainWS w).getLast? = some (.exit 1) := by
  unfold mainWS clientCall
  simp only [hd, if_true]
  generalize "foo_getNumber".toList = m1
  generalize "bar_double".toList = m2
  cases h1 : w.serve (mainConfig w) mainAPIs .ws m1 [] with
  | none => simp [logCrit]
  | some e =>
    cases h2 : w.serve (mainConfig w) mainAPIs .ws m2 [e] with
    | none => simp [h2]
    | some x => simp [logCrit, h2]

theorem mainHTTP_last (w : NodeWorld) (hd : ∀ t, w.dial t = true) :
    Event.stopped ∈ mainHTTP w ∨ (mainHTTP w).getLast? = some (.exit 1) := by
  have hne : mainWS w ≠ [] := by
    unfold mainWS clientCall
    simp [hd]
  have hws := mainWS_last w (hd .ws)
  unfold mainHTTP clientCall
  simp only [hd, if_true]
  generalize "foo_getNumber".toList = m1
  generalize "bar_double".toList = m2
  cases h1 : w.serve (mainConfig w) mainAPIs .http m1 [] with
  | none => simp [logCrit]
  | some c =>
    cases h2 : w.serve (mainConfig w) mainAPIs .http m2 [c] with
    | none => simp [logCrit, h2]
    | some d =>
      rcases hws with h | h
      · simp [h2, h]
      · right
        simp [h2, List.getLast?_cons_cons, List.getLast?_cons, hne, h]

theorem mainIPC_last (w : NodeWorld) (hd : ∀ t, w.dial t = true) :
    Event.stopped ∈ mainIPC w ∨ (mainIPC w).getLast? = some (.exit 1) := by
  have hne : mainHTTP w ≠ [] := by
    unfold mainHTTP clientCall
    simp [hd]
  have hhttp := mainHTTP_last w hd
  unfold mainIPC clientCall
  simp only [hd, if_true]
  generalize "foo_getNumber".toList = m1
  generalize "bar_double".toList = m2
  cases h1 : w.serve (mainConfig w) mainAPIs .ipc m1 [] with
  | none => simp [logCrit]
  | some c =>
    cases h2 : w.serve (mainConfig w) mainAPIs .ipc m2 [c] with
    | none => simp [logCrit, h2]
    | some d =>
      rcases hhttp with h | h
      · simp [h2, h]
      · right
        simp [h2, List.getLast?_cons_cons, List.getLast?_cons, hne, h]

/-- C8, as amended: once the node has started (and the three dials returned a
client), `Stop()` is called exactly when the first five calls succeed and
`bar_double` over WS fails; with any other combination of outcomes the run ends
with exit status 1 and `Stop()` is not called. -/
theorem stop_iff_script_as_expected (w : NodeWorld) (hup : NodeUp w)
    (hd : ∀ t, w.dial t = true) :
    (Event.stopped ∈ main w ↔ ScriptAsExpected w) ∧
    (¬ ScriptAsExpected w → Event.stopped ∉ main w ∧ (main w).getLast? = some (.exit 1)) := by
  obtain ⟨h1, h2, h3⟩ := hup
  have hne : mainIPC w ≠ [] := by
    unfold mainIPC clientCall
    simp [hd]
  have hmain : main w = .started :: mainIPC w := by
    unfold main
    simp [h1, h2, h3]
  have hiff : Event.stopped ∈ main w ↔ ScriptAsExpected w := by
    rw [hmain, ← mainIPC_stopped w hd]
    simp
  refine ⟨hiff, fun hn => ⟨fun h => hn (hiff.1 h), ?_⟩⟩
  rcases mainIPC_last w hd with h | h
  · exact absurd ((mainIPC_stopped w hd).1 h) hn
  · rw [hmain]
    simp [List.getLast?_cons, hne, h]

/-- An instance of C8, as amended, on the world served by the modelled RPC layer. -/
theorem stop_iff_script_as_expected_witness :
    (Event.stopped ∈ main worldRPC ↔ ScriptAsExpected worldRPC) ∧
    (¬ ScriptAsExpected worldRPC →
      Event.stopped ∉ main worldRPC ∧ (main worldRPC).getLast? = some (.exit 1)) :=
  stop_iff_script_as_expected worldRPC ⟨rfl, rfl, rfl⟩ (fun _ => rfl)

/-- C8, as stated, fails: with the node started, a run in which `bar_double`
over WS succeeds and a run in which the first IPC call fails both end with exit
status 1 without calling `Stop()`. -/
theorem stop_not_unconditional_counterexample :
    (NodeUp worldAllSucceed ∧ Event.stopped ∉ main worldAllSucceed ∧
      main worldAllSucceed = [.started,
        .call .ipc "foo_getNumber".toList [] (some 1), .info "IPC" "getnumber" (some 1),
        .call .ipc "bar_double".toList [1] (some 1), .info "IPC" "double" (some 1),
        .call .http "foo_getNumber".toList [] (some 1), .info "HTTP" "getnumber" (some 1),
        .call .http "bar_double".toList [1] (some 1), .info "HTTP" "double" (some 1),
        .call .ws "foo_getNumber".toList [] (some 1), .info "WS" "getnumber" (some 1),
        .call .ws "bar_double".toList [1] (some 1),
        .crit "WS RPC double should have failed!", .exit 1]) ∧
    (NodeUp worldIPCFails ∧ Event.stopped ∉ main worldIPCFails ∧
      main worldIPCFails = [.started, .call .ipc "foo_getNumber".toList [] none,
        .crit "IPC RPC getnumber failed", .exit 1]) := by
  refine ⟨⟨⟨rfl, rfl, rfl⟩, by decide, by decide⟩, ⟨⟨rfl, rfl, rfl⟩, by decide, by decide⟩⟩

/-! ## The run under the RPC layer of the claim -/

theorem rpcServe_getNumber (bits : Nat) (cfg : Config) (t : Transport)
    (h : "foo".toList ∈ modulesOf cfg mainAPIs t) :
    rpcServe bits cfg mainAPIs t "foo_getNumber".toList [] = some 42 := by
  have hs : splitMethod "foo_getNumber".toList = ("foo".toList, "getNumber".toList) := by decide
  unfold rpcServe
  rw [hs, if_pos h]
  rfl

theorem rpcServe_double (bits : Nat) (hbits : bits = 32 ∨ bits = 64) (cfg : Config)
    (t : Transport) (h : "bar".toList ∈ modulesOf cfg mainAPIs t) :
    rpcServe bits cfg mainAPIs t "bar_double".toList [42] = some 84 := by
  have hs : splitMethod "bar_double".toList = ("bar".toList, "double".toList) := by decide
  unfold rpcServe
  rw [hs, if_pos h]
  rcases hbits with hb | hb <;> subst hb <;> decide

theorem rpcServe_hidden (bits : Nat) (cfg : Config) (t : Transport) (args : List Int)
    (h : "bar".toList ∉ modulesOf cfg mainAPIs t) :
    rpcServe bits cfg mainAPIs t "bar_double".toList args = none := by
  have hs : splitMethod "bar_double".toList = ("bar".toList, "double".toList) := by decide
  unfold rpcServe
  rw [hs, if_neg h]

/-- On the two methods of the service the modelled RPC layer answers exactly when
the namespace is in the module list of the transport. -/
theorem rpcServe_succeeds_iff (bits : Nat) (cfg : Config) (t : Transport) (n : Int) :
    ((rpcServe bits cfg mainAPIs t "foo_getNumber".toList []).isSome ↔
      "foo".toList ∈ modulesOf cfg mainAPIs t) ∧
    ((rpcServe bits cfg mainAPIs t "bar_double".toList [n]).isSome ↔
      "bar".toList ∈ modulesOf cfg mainAPIs t) := by
  have hs1 : splitMethod "foo_getNumber".toList = ("foo".toList, "getNumber".toList) := by
    decide
  have hs2 : splitMethod "bar_double".toList = ("bar".toList, "double".toList) := by decide
  have hd1 : dispatch bits mainAPIs "foo".toList "getNumber".toList [] = some 42 := rfl
  have hd2 : dispatch bits mainAPIs "bar".toList "double".toList [n] =
      some (BarAPI.Double bits {} n).1 := rfl
  unfold rpcServe
  rw [hs1, hs2]
  constructor
  · by_cases h : "foo".toList ∈ modulesOf cfg mainAPIs t
    · rw [if_pos h, hd1]
      exact ⟨fun _ => h, fun _ => rfl⟩
    · rw [if_neg h]
      exact ⟨fun hc => absurd hc (by simp), fun hc => absurd hc h⟩
  · by_cases h : "bar".toList ∈ modulesOf cfg mainAPIs t
    · rw [if_pos h, hd2]
      exact ⟨fun _ => h, fun _ => rfl⟩
    · rw [if_neg h]
      exact ⟨fun hc => absurd hc (by simp), fun hc => absurd hc h⟩

/-- C9: with the node up and the dials answered, (1) if calls are answered by the
RPC layer of the claim and the default WS module list does not contain `bar`,
the configuration has HTTP modules `defaults ++ [foo, bar]` and WS modules
`defaults ++ [foo]`, and the run is: IPC `foo_getNumber` = 42, IPC
`bar_double(42)` = 84, the same two over HTTP, WS `foo_getNumber` = 42, WS
`bar_double(42)` fails and is logged as information, `Stop()`, normal
termination; (2) whatever answers the calls, if the first five succeed and
`bar_double` over WS succeeds too, the run ends with a critical log record and
exit status 1. -/
theorem scripted_run (w : NodeWorld) (hup : NodeUp w) (hd : ∀ t, w.dial t = true) :
    (w.serve = rpcServe w.intBits → (w.intBits = 32 ∨ w.intBits = 64) →
      "bar".toList ∉ w.DefaultConfig.WSModules →
      (mainConfig w).HTTPModules = w.DefaultConfig.HTTPModules ++ ["foo".toList, "bar".toList] ∧
      (mainConfig w).WSModules = w.DefaultConfig.WSModules ++ ["foo".toList] ∧
      main w = [.started,
        .call .ipc "foo_getNumber".toList [] (some 42), .info "IPC" "getnumber" (some 42),
        .call .ipc "bar_double".toList [42] (some 84), .info "IPC" "double" (some 84),
        .call .http "foo_getNumber".toList [] (some 42), .info "HTTP" "getnumber" (some 42),
        .call .http "bar_double".toList [42] (some 84), .info "HTTP" "double" (some 84),
        .call .ws "foo_getNumber".toList [] (some 42), .info "WS" "getnumber" (some 42),
        .call .ws "bar_double".toList [42] none,
        .info "WS (expected fail)" "err" none, .stopped, .exit 0]) ∧
    (∀ a b c d e x : Int,
      outcome w .ipc "foo_getNumber" [] = some a → outcome w .ipc "bar_double" [a] = some b →
      outcome w .http "foo_getNumber" [] = some c → outcome w .http "bar_double" [c] = some d →
      outcome w .ws "foo_getNumber" [] = some e → outcome w .ws "bar_double" [e] = some x →
      main w = [.started,
        .call .ipc "foo_getNumber".toList [] (some a), .info "IPC" "getnumber" (some a),
        .call .ipc "bar_double".toList [a] (some b), .info "IPC" "double" (some b),
        .call .http "foo_getNumber".toList [] (some c), .info "HTTP" "getnumber" (some c),
        .call .http "bar_double".toList [c] (some d), .info "HTTP" "double" (some d),
        .call .ws "foo_getNumber".toList [] (some e), .info "WS" "getnumber" (some e),
        .call .ws "bar_double".toList [e] (some x),
        .crit "WS RPC double should have failed!", .exit 1]) := by
  obtain ⟨h1, h2, h3⟩ := hup
  constructor
  · intro hserve hbits hbar
    have hH : (mainConfig w).HTTPModules =
        w.DefaultConfig.HTTPModules ++ ["foo".toList, "bar".toList] := rfl
    have hW : (mainConfig w).WSModules = w.DefaultConfig.WSModules ++ ["foo".toList] := rfl
    refine ⟨hH, hW, ?_⟩
    have fooIPC : "foo".toList ∈ modulesOf (mainConfig w) mainAPIs .ipc := by
      show _ ∈ mainAPIs.map (fun a => a.Namespace)
      decide
    have barIPC : "bar".toList ∈ modulesOf (mainConfig w) mainAPIs .ipc := by
      show _ ∈ mainAPIs.map (fun a => a.Namespace)
      decide
    have fooHTTP : "foo".toList ∈ modulesOf (mainConfig w) mainAPIs .http := by
      show _ ∈ (mainConfig w).HTTPModules
      rw [hH]; simp
    have barHTTP : "bar".toList ∈ modulesOf (mainConfig w) mainAPIs .http := by
      show _ ∈ (mainConfig w).HTTPModules
      rw [hH]; simp
    have fooWS : "foo".toList ∈ modulesOf (mainConfig w) mainAPIs .ws := by
      show _ ∈ (mainConfig w).WSModules
      rw [hW]; simp
    have barWS : "bar".toList ∉ modulesOf (mainConfig w) mainAPIs .ws := by
      show _ ∉ (mainConfig w).WSModules
      rw [hW]
      intro hmem
      rcases List.mem_append.1 hmem with h | h
      · exact hbar h
      · revert h; decide
    unfold main mainIPC mainHTTP mainWS clientCall
    simp only [h1, h2, h3, hd, if_true, hserve,
      rpcServe_getNumber _ _ _ fooIPC, rpcServe_double _ hbits _ _ barIPC,
      rpcServe_getNumber _ _ _ fooHTTP, rpcServe_double _ hbits _ _ barHTTP,
      rpcServe_getNumber _ _ _ fooWS, rpcServe_hidden _ _ _ _ barWS]
  · intro a b c d e x ha hb hc hd' he hx
    unfold outcome at ha hb hc hd' he hx
    unfold main mainIPC mainHTTP mainWS clientCall
    simp only [h1, h2, h3, hd, if_true, ha, hb, hc, hd', he, hx, logCrit]

/-- Instances of C9: the run served by the modelled RPC layer, and the run in
which every call succeeds. -/
theorem scripted_run_witness :
    main worldRPC = [.started,
        .call .ipc "foo_getNumber".toList [] (some 42), .info "IPC" "getnumber" (some 42),
        .call .ipc "bar_double".toList [42] (some 84), .info "IPC" "double" (some 84),
        .call .http "foo_getNumber".toList [] (some 42), .info "HTTP" "getnumber" (some 42),
        .call .http "bar_double".toList [42] (some 84), .info "HTTP" "double" (some 84),
        .call .ws "foo_getNumber".toList [] (some 42), .info "WS" "getnumber" (some 42),
        .call .ws "bar_double".toList [42] none,
        .info "WS (expected fail)" "err" none, .stopped, .exit 0] ∧
    (main worldAllSucceed).getLast? = some (.exit 1) :=
  ⟨((scripted_run worldRPC ⟨rfl, rfl, rfl⟩ (fun _ => rfl)).1 rfl (Or.inr rfl) (by decide)).2.2,
   by
    rw [(scripted_run worldAllSucceed ⟨rfl, rfl, rfl⟩ (fun _ => rfl)).2 1 1 1 1 1 1
      rfl rfl rfl rfl rfl rfl]
    rfl⟩

end Standalone

namespace Signmru

/-! ## Strings -/

theorem stringsContains_iff_occurs (s substr : GoString) :
    stringsContains s substr = true ↔ substr <:+: s := by
  induction s with
  | nil =>
    cases substr <;> simp [stringsContains]
  | cons c cs ih =>
    simp only [stringsContains, Bool.or_eq_true, ih, List.infix_cons_iff,
      List.isPrefixOf_iff_prefix]

theorem stringsContains_empty (s : GoString) : stringsContains s [] = true :=
  (stringsContains_iff_occurs s []).2 List.nil_infix

/-! ## Runs -/

theorem stdoutOf_append (r₁ r₂ : List Event) :
    stdoutOf (r₁ ++ r₂) = stdoutOf r₁ ++ stdoutOf r₂ := by
  induction r₁ with
  | nil => rfl
  | cons e es ih => cases e <;> simp [stdoutOf, ih]

theorem exitStatus_cons (e : Event) (es : List Event) :
    exitStatus (e :: es) = match e with
      | .exit n => some n
      | _ => exitStatus es := by
  cases e <;> rfl

theorem stdoutOf_cons (e : Event) (es : List Event) :
    stdoutOf (e :: es) = match e with
      | .stdout text => text ++ stdoutOf es
      | _ => stdoutOf es := by
  cases e <;> rfl

/-- A run of `decryptAndSign` either fails with status 1 and writes nothing to
standard output, or ends with status 0 after writing the signed request. -/
theorem decryptAndSign_outcome {Key Request : Type} (w : World Key Request)
    (g_file j g_pass : GoString) :
    (exitStatus (decryptAndSign w g_file j g_pass) = some 1 ∧
      stdoutOf (decryptAndSign w g_file j g_pass) = []) ∨
    (∃ (key : Key) (requestJson : GoString) (request : Request) (resultJson : GoString),
      w.decryptKey j g_pass = some key ∧ w.readFile g_file = some requestJson ∧
      w.unmarshalJSON requestJson = some request ∧
      w.marshalJSON (w.sign request key) = .ok resultJson ∧
      exitStatus (decryptAndSign w g_file j g_pass) = some 0 ∧
      stdoutOf (decryptAndSign w g_file j g_pass) = resultJson ++ ['\n']) := by
  unfold decryptAndSign
  cases h1 : w.decryptKey j g_pass with
  | none => left; simp [exitStatus, stdoutOf, *]
  | some key =>
    cases h2 : w.hexToECDSA (w.privkeyHex key) with
    | false => left; simp [exitStatus, stdoutOf, *]
    | true =>
      cases h3 : w.readFile g_file with
      | none => left; simp [exitStatus, stdoutOf, *]
      | some requestJson =>
        cases h4 : w.unmarshalJSON requestJson with
        | none => left; simp [exitStatus, stdoutOf, *]
        | some request =>
          cases h5 : w.marshalJSON request with
          | error err => left; simp [exitStatus, stdoutOf, *]
          | ok _ =>
            cases h6 : w.getDigest request with
            | error err => left; simp [exitStatus, stdoutOf, *]
            | ok _ =>
              cases h7 : w.marshalJSON (w.sign request key) with
              | error err => left; simp [exitStatus, stdoutOf, *]
              | ok resultJson =>
                right
                exact ⟨key, requestJson, request, resultJson, rfl, rfl, h4, h7,
                  by simp [exitStatus, *], by simp [stdoutOf, *]⟩

theorem openAndSign_success {Key Request : Type} (w : World Key Request)
    (g_pass g_file keyfile : GoString)
    (h : exitStatus (openAndSign w g_pass g_file keyfile) = some 0) :
    ∃ resultJson, Signed w g_file keyfile resultJson ∧
      stdoutOf (openAndSign w g_pass g_file keyfile) =
        promptText g_pass ++ resultJson ++ ['\n'] := by
  unfold openAndSign at h ⊢
  cases h1 : w.readFile keyfile with
  | none => simp [exitStatus_cons, h1] at h
  | some j =>
    by_cases hp : g_pass = []
    · cases h2 : w.readPassword with
      | none => simp [exitStatus_cons, h1, h2, hp] at h
      | some bytePassword =>
        simp only [h1, h2, hp, if_true, exitStatus_cons] at h
        rcases decryptAndSign_outcome w g_file j bytePassword with hf | hs
        · rw [hf.1] at h
          simp at h
        · obtain ⟨key, requestJson, request, resultJson, e1, e2, e3, e4, _, e6⟩ := hs
          refine ⟨resultJson, ⟨j, bytePassword, key, requestJson, request, h1, e1, e2, e3, e4⟩, ?_⟩
          simp [stdoutOf_cons, h2, e6, promptText, hp]
    · simp only [h1, hp, if_false, exitStatus_cons] at h
      rcases decryptAndSign_outcome w g_file j g_pass with hf | hs
      · rw [hf.1] at h
        simp at h
      · obtain ⟨key, requestJson, request, resultJson, e1, e2, e3, e4, _, e6⟩ := hs
        refine ⟨resultJson, ⟨j, g_pass, key, requestJson, request, h1, e1, e2, e3, e4⟩, ?_⟩
        simp [stdoutOf_cons, hp, e6, promptText]

theorem withKeyfile_success {Key Request : Type} (w : World Key Request)
    (g_pass g_file keyfile : GoString)
    (h : exitStatus (withKeyfile w g_pass g_file keyfile) = some 0) :
    ∃ resultJson, Signed w g_file keyfile resultJson ∧
      stdoutOf (withKeyfile w g_pass g_file keyfile) =
        promptText g_pass ++ resultJson ++ ['\n'] := by
  unfold withKeyfile at h ⊢
  by_cases hk : keyfile = []
  · simp [hk, exitStatus_cons] at h
  · simp only [hk, if_false] at h ⊢
    exact openAndSign_success w g_pass g_file keyfile h

theorem scanAndSign_success {Key Request : Type} (w : World Key Request)
    (keystoredir g_pass g_arg g_file : GoString) (dircontents : List GoString)
    (h : exitStatus (scanAndSign w keystoredir g_pass g_arg g_file dircontents) = some 0) :
    ∃ keyfile resultJson, Signed w g_file keyfile resultJson ∧
      stdoutOf (scanAndSign w keystoredir g_pass g_arg g_file dircontents) =
        promptText g_pass ++ resultJson ++ ['\n'] := by
  unfold scanAndSign at h ⊢
  cases hs : scanKeystore keystoredir g_arg dircontents [] with
  | none => simp [hs, exitStatus_cons] at h
  | some keyfile =>
    simp only [hs] at h ⊢
    exact ⟨keyfile, withKeyfile_success w g_pass g_file keyfile h⟩

theorem resolveKey_success {Key Request : Type} (w : World Key Request)
    (g_dir g_pass g_arg g_file : GoString)
    (h : exitStatus (resolveKey w g_dir g_pass g_arg g_file) = some 0) :
    ∃ keyfile resultJson, Signed w g_file keyfile resultJson ∧
      stdoutOf (resolveKey w g_dir g_pass g_arg g_file) =
        promptText g_pass ++ resultJson ++ ['\n'] := by
  unfold resolveKey at h ⊢
  cases hd : w.hexutilDecode g_arg with
  | false =>
    cases hs : w.stat g_arg with
    | none => simp [hd, hs, exitStatus_cons] at h
    | some isDir =>
      cases isDir with
      | true => simp [hd, hs, exitStatus_cons] at h
      | false =>
        simp only [hd, hs, exitStatus_cons, stdoutOf_cons, Bool.not_false, if_true] at h ⊢
        exact ⟨g_arg, withKeyfile_success w g_pass g_file g_arg h⟩
  | true =>
    cases hs : w.stat g_dir with
    | none => simp [hd, hs, exitStatus_cons] at h
    | some isDir =>
      cases isDir with
      | false => simp [hd, hs, exitStatus_cons] at h
      | true =>
        cases hr : w.readDir (g_dir ++ "/keystore".toList) with
        | none =>
          simp only [hd, hs, hr, exitStatus_cons, stdoutOf_cons, Bool.not_true, if_false,
            Bool.false_eq_true] at h ⊢
          exact scanAndSign_success w _ g_pass g_arg g_file [] h
        | some dircontents =>
          simp only [hd, hs, hr, exitStatus_cons, stdoutOf_cons, Bool.not_true, if_false,
            Bool.false_eq_true] at h ⊢
          exact scanAndSign_success w _ g_pass g_arg g_file dircontents h

theorem checkArgs_success {Key Request : Type} (w : World Key Request)
    (g_dir g_pass : GoString) (fl : Flags)
    (h : exitStatus (checkArgs w g_dir g_pass fl) = some 0) :
    ∃ keyfile resultJson, Signed w (fl.Arg 1) keyfile resultJson ∧
      stdoutOf (checkArgs w g_dir g_pass fl) = promptText g_pass ++ resultJson ++ ['\n'] := by
  unfold checkArgs at h ⊢
  by_cases h0 : fl.Arg 0 = []
  · simp [h0, exitStatus_cons] at h
  · by_cases h1 : fl.Arg 1 = []
    · simp [h0, h1, exitStatus_cons] at h
    · simp only [h0, h1, if_false] at h ⊢
      exact resolveKey_success w g_dir g_pass _ _ h

theorem mainParsed_success {Key Request : Type} (w : World Key Request)
    (defaultdatadir : GoString) (fl : Flags) (hhelp : fl.help = false)
    (h : exitStatus (mainParsed w defaultdatadir fl) = some 0) :
    ∃ g_pass keyfile resultJson, PassFromFile w fl g_pass ∧
      Signed w (fl.Arg 1) keyfile resultJson ∧
      stdoutOf (mainParsed w defaultdatadir fl) = promptText g_pass ++ resultJson ++ ['\n'] := by
  unfold mainParsed at h ⊢
  by_cases hp : fl.passfile = []
  · simp only [hhelp, hp, ne_eq, not_true_eq_false, if_false, Bool.false_eq_true] at h ⊢
    obtain ⟨keyfile, resultJson, hs, ho⟩ := checkArgs_success w _ [] fl h
    exact ⟨[], keyfile, resultJson, by simp [PassFromFile, hp], hs, ho⟩
  · cases hr : w.readFile fl.passfile with
    | none => simp [hhelp, hp, hr, exitStatus_cons] at h
    | some pass =>
      simp only [hhelp, hp, hr, ne_eq, not_false_eq_true, if_true, if_false, Bool.false_eq_true,
        exitStatus_cons, stdoutOf_cons] at h ⊢
      obtain ⟨keyfile, resultJson, hs, ho⟩ := checkArgs_success w _ pass fl h
      exact ⟨pass, keyfile, resultJson, by simp [PassFromFile, hp, hr], hs, ho⟩

/-- C7, as amended: in a run that ends with status 0 and in which the usage text
was not asked for, standard output holds the serialized signed request followed
by a newline, preceded by the prompt `pass:` exactly when the passphrase was
not supplied by a non-empty password file. -/
theorem stdout_of_successful_run {Key Request : Type} (w : World Key Request)
    (hnohelp : ¬ HelpRequested w) (hexit : exitStatus (main w) = some 0) :
    ∃ home fl g_pass keyfile resultJson,
      w.userCurrent = some home ∧
      flagParse (flagDefaults (home ++ "/.ethereum".toList)) w.args = .parsed fl ∧
      PassFromFile w fl g_pass ∧
      Signed w (fl.Arg 1) keyfile resultJson ∧
      stdoutOf (main w) = promptText g_pass ++ resultJson ++ ['\n'] := by
  cases hu : w.userCurrent with
  | none =>
    unfold main at hexit
    simp [hu, exitStatus_cons] at hexit
  | some home =>
    cases hparse : flagParse (flagDefaults (home ++ "/.ethereum".toList)) w.args with
    | failed =>
      unfold main at hexit
      simp only [hu, hparse] at hexit
      simp [usage, exitStatus_cons] at hexit
    | errHelp => exact absurd ⟨home, hu, Or.inl hparse⟩ hnohelp
    | parsed fl =>
      have hhelp : fl.help = false := by
        cases hh : fl.help with
        | false => rfl
        | true => exact absurd ⟨home, hu, Or.inr ⟨fl, hparse, hh⟩⟩ hnohelp
      have hmain : main w = mainParsed w (home ++ "/.ethereum".toList) fl := by
        unfold main
        simp only [hu, hparse]
      rw [hmain] at hexit ⊢
      obtain ⟨g_pass, keyfile, resultJson, h1, h2, h3⟩ :=
        mainParsed_success w _ fl hhelp hexit
      exact ⟨home, fl, g_pass, keyfile, resultJson, rfl, hparse, h1, h2, h3⟩

/-! ## Key resolution -/

theorem sliceFrom_two (g_arg : GoString) (hlen : 2 ≤ g_arg.length) :
    sliceFrom g_arg 2 = some (g_arg.drop 2) := by
  unfold sliceFrom
  rw [if_pos hlen]

/-- The loop keeps the path of the last entry whose name contains the text after
the prefix, and the initial value when there is none. -/
theorem scanKeystore_eq (keystoredir g_arg : GoString) (hlen : 2 ≤ g_arg.length)
    (dircontents : List GoString) (keyfile : GoString) :
    scanKeystore keystoredir g_arg dircontents keyfile =
      some (match (dircontents.filter (fun f => stringsContains f (g_arg.drop 2))).getLast? with
        | some f => keystoredir ++ "/".toList ++ f
        | none => keyfile) := by
  induction dircontents generalizing keyfile with
  | nil => rfl
  | cons f fs ih =>
    unfold scanKeystore
    rw [sliceFrom_two g_arg hlen]
    by_cases hf : stringsContains f (g_arg.drop 2) = true
    · simp only [hf, if_true, List.filter_cons_of_pos]
      rw [ih]
      cases hl : (fs.filter (fun f => stringsContains f (g_arg.drop 2))).getLast? with
      | none =>
        have hnil : fs.filter (fun f => stringsContains f (g_arg.drop 2)) = [] := by
          simpa [List.getLast?_eq_none_iff] using hl
        simp [hnil]
      | some g =>
        have hne : fs.filter (fun f => stringsContains f (g_arg.drop 2)) ≠ [] := by
          intro hnil
          simp [hnil] at hl
        obtain ⟨a, l, hal⟩ := List.exists_cons_of_ne_nil hne
        rw [hal] at hl ⊢
        rw [List.getLast?_cons_cons, hl]
    · simp only [hf, if_false, Bool.false_eq_true]
      rw [ih]
      simp [List.filter_cons, hf]

theorem main_eq_resolveKey {Key Request : Type} (w : World Key Request) (home : GoString)
    (fl : Flags) (g_pass : GoString) (h : ReachesResolution w home fl g_pass) :
    main w = passEvents fl ++
      resolveKey w (datadirOf (home ++ "/.ethereum".toList) fl) g_pass (fl.Arg 0) (fl.Arg 1) := by
  obtain ⟨hu, hparse, hhelp, hpass, h0, h1⟩ := h
  unfold main
  simp only [hu, hparse]
  unfold mainParsed checkArgs passEvents PassFromFile at *
  by_cases hp : fl.passfile = []
  · simp only [hp, if_true] at hpass
    simp [hhelp, hp, h0, h1, hpass]
  · simp only [hp, if_false] at hpass
    simp [hhelp, hp, h0, h1, hpass]

/-- C3, as amended: when the first argument decodes as hex and the listing of the
keystore directory has an entry whose name contains the text after the
two-byte prefix, the keyfile opened is the path of the last such entry in
listing order. -/
theorem last_match_selected {Key Request : Type} (w : World Key Request) (home : GoString)
    (fl : Flags) (g_pass : GoString) (dircontents : List GoString) (f : GoString)
    (h : ReachesResolution w home fl g_pass)
    (hdec : w.hexutilDecode (fl.Arg 0) = true) (hlen : 2 ≤ (fl.Arg 0).length)
    (hstat : w.stat (datadirOf (home ++ "/.ethereum".toList) fl) = some true)
    (hread : w.readDir (datadirOf (home ++ "/.ethereum".toList) fl ++ "/keystore".toList) =
      some dircontents)
    (hf : f ∈ dircontents) (hmatch : stringsContains f ((fl.Arg 0).drop 2) = true) :
    ∃ last, (dircontents.filter
        (fun f => stringsContains f ((fl.Arg 0).drop 2))).getLast? = some last ∧
      main w = passEvents fl ++
        [.log .debug "input is account hex",
         .stat (datadirOf (home ++ "/.ethereum".toList) fl),
         .log .debug "checking keystore dir",
         .readDir (datadirOf (home ++ "/.ethereum".toList) fl ++ "/keystore".toList)] ++
        openAndSign w g_pass (fl.Arg 1)
          (datadirOf (home ++ "/.ethereum".toList) fl ++ "/keystore".toList ++ "/".toList ++
            last) := by
  have hne : dircontents.filter (fun f => stringsContains f ((fl.Arg 0).drop 2)) ≠ [] := by
    intro hnil
    have : f ∈ dircontents.filter (fun f => stringsContains f ((fl.Arg 0).drop 2)) :=
      List.mem_filter.2 ⟨hf, hmatch⟩
    rw [hnil] at this
    exact List.not_mem_nil _ this
  cases hl : (dircontents.filter (fun f => stringsContains f ((fl.Arg 0).drop 2))).getLast? with
  | none => exact absurd (List.getLast?_eq_none_iff.1 hl) hne
  | some last =>
    refine ⟨last, rfl, ?_⟩
    rw [main_eq_resolveKey w home fl g_pass h]
    unfold resolveKey scanAndSign
    simp only [hdec, hstat, hread, Bool.not_true, Bool.false_eq_true, if_false]
    rw [scanKeystore_eq _ _ hlen, hl]
    unfold withKeyfile
    simp

theorem decryptAndSign_events {Key Request : Type} (w : World Key Request)
    (g_file keyfile j g_pass : GoString) (hj : w.readFile keyfile = some j) :
    ∀ e ∈ decryptAndSign w g_file j g_pass, OpenEvent w g_file keyfile e := by
  unfold decryptAndSign
  cases h1 : w.decryptKey j g_pass with
  | none => simp [OpenEvent, *]
  | some key =>
    cases h2 : w.hexToECDSA (w.privkeyHex key) with
    | false => simp [OpenEvent, *]
    | true =>
      cases h3 : w.readFile g_file with
      | none => simp [OpenEvent, *]
      | some requestJson =>
        cases h4 : w.unmarshalJSON requestJson with
        | none => simp [OpenEvent, *]
        | some request =>
          cases h5 : w.marshalJSON request with
          | error err => simp [OpenEvent, *]
          | ok _ =>
            cases h6 : w.getDigest request with
            | error err => simp [OpenEvent, *]
            | ok _ =>
              cases h7 : w.marshalJSON (w.sign request key) with
              | error err => simp [OpenEvent, *]
              | ok resultJson => simp [OpenEvent, *]

theorem openAndSign_events {Key Request : Type} (w : World Key Request)
    (g_pass g_file keyfile : GoString) :
    ∀ e ∈ openAndSign w g_pass g_file keyfile, OpenEvent w g_file keyfile e := by
  unfold openAndSign
  cases h1 : w.readFile keyfile with
  | none => simp [OpenEvent, *]
  | some j =>
    by_cases hp : g_pass = []
    · cases h2 : w.readPassword with
      | none => simp [OpenEvent, *]
      | some bytePassword =>
        simp only [hp, if_true, List.forall_mem_cons]
        exact ⟨by simp [OpenEvent], by simp [OpenEvent], by simp [OpenEvent],
          by simp [OpenEvent], decryptAndSign_events w g_file keyfile j bytePassword h1⟩
    · simp only [hp, if_false, List.forall_mem_cons]
      exact ⟨by simp [OpenEvent], by simp [OpenEvent],
        decryptAndSign_events w g_file keyfile j g_pass h1⟩

/-- The account branch of `resolveKey` with the loop replaced by its result. -/
theorem resolveKey_account {Key Request : Type} (w : World Key Request)
    (g_dir g_pass g_arg g_file : GoString) (hdec : w.hexutilDecode g_arg = true)
    (hlen : 2 ≤ g_arg.length) :
    resolveKey w g_dir g_pass g_arg g_file =
      .log .debug "input is account hex" :: .stat g_dir ::
      match w.stat g_dir with
      | none => [.log .error "Keystore not found", .exit 1]
      | some false => [.log .error "Keystore is not a directory", .exit 1]
      | some true =>
        .log .debug "checking keystore dir" :: .readDir (g_dir ++ "/keystore".toList) ::
        match w.readDir (g_dir ++ "/keystore".toList) with
        | none =>
          [.log .error "Can't open keystore dir: %v", .log .error "Account not found", .exit 1]
        | some dircontents =>
          match (dircontents.filter (fun f => stringsContains f (g_arg.drop 2))).getLast? with
          | none => [.log .error "Account not found", .exit 1]
          | some last =>
            openAndSign w g_pass g_file (g_dir ++ "/keystore".toList ++ "/".toList ++ last) := by
  unfold resolveKey scanAndSign
  simp only [hdec, Bool.not_true, Bool.false_eq_true, if_false]
  cases hs : w.stat g_dir with
  | none => rfl
  | some isDir =>
    cases isDir with
    | false => rfl
    | true =>
      cases hr : w.readDir (g_dir ++ "/keystore".toList) with
      | none =>
        simp only [scanKeystore, withKeyfile, if_true]
      | some dircontents =>
        simp only [scanKeystore_eq _ _ hlen]
        cases hl : (dircontents.filter (fun f => stringsContains f (g_arg.drop 2))).getLast? with
        | none => simp [withKeyfile]
        | some last => simp [withKeyfile]

theorem mem_passEvents (fl : Flags) (e : Event) (he : e ∈ passEvents fl) :
    fl.passfile ≠ [] ∧ e = .readFile fl.passfile := by
  unfold passEvents at he
  by_cases hp : fl.passfile = []
  · simp [hp] at he
  · simp only [hp, if_false, List.mem_singleton] at he
    exact ⟨hp, he⟩

theorem stdoutOf_passEvents (fl : Flags) : stdoutOf (passEvents fl) = [] := by
  unfold passEvents
  split <;> rfl

theorem exitStatus_passEvents_append (fl : Flags) (run : List Event) :
    exitStatus (passEvents fl ++ run) = exitStatus run := by
  unfold passEvents
  split <;> simp [exitStatus_cons]

/-- C5: when the run reaches key resolution with a first argument that decodes as
hex (and so has its two-byte prefix) and the keystore holds no entry for it,
the run reports `Account not found` or a keystore error, ends with status 1,
writes nothing to standard output, reads no file other than the password file
of `-p`, and neither prompts, decrypts nor signs. -/
theorem account_not_found {Key Request : Type} (w : World Key Request) (home : GoString)
    (fl : Flags) (g_pass : GoString) (h : ReachesResolution w home fl g_pass)
    (hdec : w.hexutilDecode (fl.Arg 0) = true) (hlen : 2 ≤ (fl.Arg 0).length)
    (hno : NoKeystoreMatch w (datadirOf (home ++ "/.ethereum".toList) fl) (fl.Arg 0)) :
    (Event.log .error "Account not found" ∈ main w ∨
      Event.log .error "Keystore not found" ∈ main w ∨
      Event.log .error "Keystore is not a directory" ∈ main w) ∧
    exitStatus (main w) = some 1 ∧
    stdoutOf (main w) = [] ∧
    (∀ p, Event.readFile p ∈ main w → fl.passfile ≠ [] ∧ p = fl.passfile) ∧
    Event.readPassword ∉ main w ∧
    (∀ j p, Event.decryptKey j p ∉ main w) ∧
    Event.sign ∉ main w := by
  have hpe : ∀ e ∈ passEvents fl, fl.passfile ≠ [] ∧ e = .readFile fl.passfile :=
    mem_passEvents fl
  rw [main_eq_resolveKey w home fl g_pass h, resolveKey_account w _ _ _ _ hdec hlen]
  simp only [exitStatus_passEvents_append, stdoutOf_append, stdoutOf_passEvents,
    List.nil_append, List.mem_append]
  generalize datadirOf (home ++ "/.ethereum".toList) fl = g_dir at hno ⊢
  have key : ∀ tail : List Event,
      (tail = [.log .error "Keystore not found", .exit 1] ∨
       tail = [.log .error "Keystore is not a directory", .exit 1] ∨
       tail = [.log .debug "checking keystore dir", .readDir (g_dir ++ "/keystore".toList),
         .log .error "Can't open keystore dir: %v", .log .error "Account not found", .exit 1] ∨
       tail = [.log .debug "checking keystore dir", .readDir (g_dir ++ "/keystore".toList),
         .log .error "Account not found", .exit 1]) →
      ((Event.log .error "Account not found" ∈ passEvents fl ∨
          Event.log .error "Account not found" ∈
            Event.log .debug "input is account hex" :: .stat g_dir :: tail) ∨
        (Event.log .error "Keystore not found" ∈ passEvents fl ∨
          Event.log .error "Keystore not found" ∈
            Event.log .debug "input is account hex" :: .stat g_dir :: tail) ∨
        (Event.log .error "Keystore is not a directory" ∈ passEvents fl ∨
          Event.log .error "Keystore is not a directory" ∈
            Event.log .debug "input is account hex" :: .stat g_dir :: tail)) ∧
      exitStatus (Event.log .debug "input is account hex" :: .stat g_dir :: tail) = some 1 ∧
      stdoutOf (Event.log .debug "input is account hex" :: .stat g_dir :: tail) = [] ∧
      (∀ p, (Event.readFile p ∈ passEvents fl ∨
          Event.readFile p ∈ Event.log .debug "input is account hex" :: .stat g_dir :: tail) →
        fl.passfile ≠ [] ∧ p = fl.passfile) ∧
      ¬ (Event.readPassword ∈ passEvents fl ∨
          Event.readPassword ∈ Event.log .debug "input is account hex" :: .stat g_dir :: tail) ∧
      (∀ j p, ¬ (Event.decryptKey j p ∈ passEvents fl ∨
          Event.decryptKey j p ∈
            Event.log .debug "input is account hex" :: .stat g_dir :: tail)) ∧
      ¬ (Event.sign ∈ passEvents fl ∨
          Event.sign ∈ Event.log .debug "input is account hex" :: .stat g_dir :: tail) := by
    intro tail ht
    have r1 : ∀ p, Event.readFile p ∈ passEvents fl → fl.passfile ≠ [] ∧ p = fl.passfile := by
      intro p hp
      have := hpe _ hp
      exact ⟨this.1, by simpa using this.2⟩
    have r2 : Event.readPassword ∉ passEvents fl := fun hp => by simpa using (hpe _ hp).2
    have r3 : ∀ j p, Event.decryptKey j p ∉ passEvents fl :=
      fun j p hp => by simpa using (hpe _ hp).2
    have r4 : Event.sign ∉ passEvents fl := fun hp => by simpa using (hpe _ hp).2
    rcases ht with rfl | rfl | rfl | rfl <;>
      simp [exitStatus_cons, stdoutOf_cons, stdoutOf, r2, r3, r4] <;>
      exact fun p hp => r1 p hp
  apply key
  cases hs : w.stat g_dir with
  | none => simp
  | some isDir =>
    cases isDir with
    | false => simp
    | true =>
      cases hr : w.readDir (g_dir ++ "/keystore".toList) with
      | none => simp
      | some dircontents =>
        rcases hno with hno | hno | ⟨dc, hdc, hall⟩
        · exact absurd hs hno
        · rw [hr] at hno
          exact absurd hno (by simp)
        · rw [hr] at hdc
          cases hdc
          have hnil : dircontents.filter (fun f => stringsContains f ((fl.Arg 0).drop 2)) = [] := by
            rw [List.filter_eq_nil_iff]
            intro f hf
            simp [hall f hf]
          simp [hnil]

/-- The keyfile branch of `resolveKey`. -/
theorem resolveKey_keyfile {Key Request : Type} (w : World Key Request)
    (g_dir g_pass g_arg g_file : GoString) (hdec : w.hexutilDecode g_arg = false)
    (harg : g_arg ≠ []) :
    resolveKey w g_dir g_pass g_arg g_file =
      .log .debug "input is keyfile" :: .stat g_arg ::
      match w.stat g_arg with
      | none => [.log .error "Keyfile not found", .exit 1]
      | some true => [.log .error "Keyfile argument is a directory", .exit 1]
      | some false => openAndSign w g_pass g_file g_arg := by
  unfold resolveKey withKeyfile
  simp only [hdec, Bool.not_false, if_true, harg, if_false]

/-- C4: when the run reaches key resolution with a first argument that does not
decode as hex, (1) if the argument names an existing path that is not a
directory, the keyfile opened is that argument, what is decrypted is the
content of that file, and the only path examined with `os.Stat` is the
argument, no directory being listed; (2) if the path does not exist or is a
directory the run ends with status 1; (3) the run is the same for every value
of the `-d` flag and every default data directory. -/
theorem keyfile_argument_used {Key Request : Type} (w : World Key Request) (home : GoString)
    (fl : Flags) (g_pass : GoString) (h : ReachesResolution w home fl g_pass)
    (hdec : w.hexutilDecode (fl.Arg 0) = false) :
    (w.stat (fl.Arg 0) = some false →
      main w = passEvents fl ++ [.log .debug "input is keyfile", .stat (fl.Arg 0)] ++
        openAndSign w g_pass (fl.Arg 1) (fl.Arg 0) ∧
      (∀ j p, Event.decryptKey j p ∈ main w → w.readFile (fl.Arg 0) = some j) ∧
      (∀ p, Event.stat p ∈ main w → p = fl.Arg 0) ∧
      (∀ p, Event.readDir p ∉ main w)) ∧
    (w.stat (fl.Arg 0) = none →
      main w = passEvents fl ++ [.log .debug "input is keyfile", .stat (fl.Arg 0),
        .log .error "Keyfile not found", .exit 1] ∧ exitStatus (main w) = some 1) ∧
    (w.stat (fl.Arg 0) = some true →
      main w = passEvents fl ++ [.log .debug "input is keyfile", .stat (fl.Arg 0),
        .log .error "Keyfile argument is a directory", .exit 1] ∧
      exitStatus (main w) = some 1) ∧
    (∀ d defaultdatadir : GoString,
      mainParsed w defaultdatadir { fl with dir := d } = main w) := by
  have hmain := main_eq_resolveKey w home fl g_pass h
  have hres := fun g_dir => resolveKey_keyfile w g_dir g_pass (fl.Arg 0) (fl.Arg 1) hdec h.2.2.2.2.1
  have hpe := mem_passEvents fl
  refine ⟨fun hs => ?_, fun hs => ?_, fun hs => ?_, fun d dflt => ?_⟩
  · have hrun : main w = passEvents fl ++ [.log .debug "input is keyfile", .stat (fl.Arg 0)] ++
        openAndSign w g_pass (fl.Arg 1) (fl.Arg 0) := by
      rw [hmain, hres, hs]
      simp
    have hopen := openAndSign_events w g_pass (fl.Arg 1) (fl.Arg 0)
    refine ⟨hrun, ?_, ?_, ?_⟩
    · intro j p hin
      rw [hrun] at hin
      simp only [List.mem_append, List.mem_cons, List.mem_singleton, List.not_mem_nil,
        or_false] at hin
      rcases hin with (hin | hin | hin) | hin
      · exact absurd (hpe _ hin).2 (by simp)
      · exact absurd hin (by simp)
      · exact absurd hin (by simp)
      · exact hopen _ hin
    · intro p hin
      rw [hrun] at hin
      simp only [List.mem_append, List.mem_cons, List.mem_singleton, List.not_mem_nil,
        or_false] at hin
      rcases hin with (hin | hin | hin) | hin
      · exact absurd (hpe _ hin).2 (by simp)
      · exact absurd hin (by simp)
      · simpa using hin
      · exact absurd (hopen _ hin) (by simp [OpenEvent])
    · intro p hin
      rw [hrun] at hin
      simp only [List.mem_append, List.mem_cons, List.mem_singleton, List.not_mem_nil,
        or_false] at hin
      rcases hin with (hin | hin | hin) | hin
      · exact absurd (hpe _ hin).2 (by simp)
      · exact absurd hin (by simp)
      · exact absurd hin (by simp)
      · exact absurd (hopen _ hin) (by simp [OpenEvent])
  · have hrun : main w = passEvents fl ++ [.log .debug "input is keyfile", .stat (fl.Arg 0),
        .log .error "Keyfile not found", .exit 1] := by
      rw [hmain, hres, hs]
    refine ⟨hrun, ?_⟩
    rw [hrun, exitStatus_passEvents_append]
    rfl
  · have hrun : main w = passEvents fl ++ [.log .debug "input is keyfile", .stat (fl.Arg 0),
        .log .error "Keyfile argument is a directory", .exit 1] := by
      rw [hmain, hres, hs]
    refine ⟨hrun, ?_⟩
    rw [hrun, exitStatus_passEvents_append]
    rfl
  · obtain ⟨hu, hparse, hhelp, hpass, h0, h1⟩ := h
    have e1 : main w = mainParsed w (home ++ "/.ethereum".toList) fl := by
      unfold main
      simp only [hu, hparse]
    rw [e1]
    unfold mainParsed checkArgs
    have hA : ∀ i, Flags.Arg { fl with dir := d } i = fl.Arg i := fun _ => rfl
    have hres2 := fun g_dir p =>
      resolveKey_keyfile w g_dir p (fl.Arg 0) (fl.Arg 1) hdec h0
    simp only [hA, h0, h1, if_false, hres2]

theorem missing_positional_parsed {Key Request : Type} (w : World Key Request)
    (home : GoString) (fl : Flags) (hu : w.userCurrent = some home)
    (hmp : MissingPositional w home fl) :
    exitStatus (main w) = some 1 ∧
    stdoutOf (main w) = [] ∧
    ∀ e ∈ main w, e = .readFile fl.passfile ∨ (∃ msg, e = .log .error msg) ∨ e = .exit 1 := by
  obtain ⟨hparse, hhelp, hmiss⟩ := hmp
  have hmain : main w = mainParsed w (home ++ "/.ethereum".toList) fl := by
    unfold main
    simp only [hu, hparse]
  have hargs : ∀ g_dir g_pass, checkArgs w g_dir g_pass fl =
      [.log .error "Account or keyfile must be specified", .exit 1] ∨
      checkArgs w g_dir g_pass fl =
        [.log .error "json request file must be specified", .exit 1] := by
    intro g_dir g_pass
    unfold checkArgs
    by_cases h0 : fl.Arg 0 = []
    · simp [h0]
    · rcases hmiss with h | h
      · exact absurd h h0
      · simp [h0, h]
  rw [hmain]
  unfold mainParsed
  by_cases hp : fl.passfile = []
  · simp only [hhelp, hp, ne_eq, not_true_eq_false, if_false, Bool.false_eq_true]
    rcases hargs (datadirOf (home ++ "/.ethereum".toList) fl) [] with h | h <;>
      rw [h] <;> simp [exitStatus_cons, stdoutOf_cons, stdoutOf]
  · cases hr : w.readFile fl.passfile with
    | none => simp [hhelp, hp, exitStatus_cons, stdoutOf_cons, stdoutOf]
    | some pass =>
      simp only [hhelp, hp, ne_eq, not_false_eq_true, if_true, if_false, Bool.false_eq_true]
      rcases hargs (datadirOf (home ++ "/.ethereum".toList) fl) pass with h | h <;>
        rw [h] <;> simp [exitStatus_cons, stdoutOf_cons, stdoutOf]

/-- C6, as amended: when the flags parse without `-h` and the first or the second
positional argument is missing or empty, the run ends with status 1, writes
nothing to standard output, and consists only of the reading of the password
file of `-p`, error records and the exit: no key resolution, no prompt, no
decryption, no signing.  This holds also when the home directory cannot be
found. -/
theorem missing_positional {Key Request : Type} (w : World Key Request)
    (hmp : ∀ home, w.userCurrent = some home → ∃ fl, MissingPositional w home fl) :
    exitStatus (main w) = some 1 ∧
    stdoutOf (main w) = [] ∧
    ∀ e ∈ main w,
      (∃ home fl, w.userCurrent = some home ∧ MissingPositional w home fl ∧
        e = .readFile fl.passfile) ∨
      (∃ msg, e = .log .error msg) ∨ e = .exit 1 := by
  cases hu : w.userCurrent with
  | none =>
    have hmain : main w =
        [.log .error "Could not get user info to resolve homedir", .exit 1] := by
      unfold main
      simp only [hu]
    rw [hmain]
    simp [exitStatus_cons, stdoutOf_cons, stdoutOf]
  | some home =>
    obtain ⟨fl, hfl⟩ := hmp home hu
    obtain ⟨h1, h2, h3⟩ := missing_positional_parsed w home fl hu hfl
    refine ⟨h1, h2, fun e he => ?_⟩
    rcases h3 e he with h | h | h
    · exact Or.inl ⟨home, fl, rfl, hfl, h⟩
    · exact Or.inr (Or.inl h)
    · exact Or.inr (Or.inr h)

theorem length_of_isHexInput (s : GoString) (h : IsHexInput s = true) : 2 ≤ s.length := by
  match s with
  | [] => simp [IsHexInput] at h
  | [_] => simp [IsHexInput] at h
  | _ :: _ :: _ => simp

/-- C10: assume `hexutil.Decode` accepts only strings made of the prefix `0x` or
`0X` and an even number of hex digits.  When the run reaches key resolution and
takes the account branch, the argument has at least two bytes, the slice
`g_arg[2:]` is in range and the run has no out-of-range slice.  For the
argument `0x` the slice is empty, every name contains it, and with a non-empty
listing of the keystore directory the keyfile opened is the path of the last
entry, no `Account not found` being reported. -/
theorem hex_argument_slice {Key Request : Type} (w : World Key Request) (home : GoString)
    (fl : Flags) (g_pass : GoString) (h : ReachesResolution w home fl g_pass)
    (hsound : ∀ s, w.hexutilDecode s = true → IsHexInput s = true)
    (hdec : w.hexutilDecode (fl.Arg 0) = true) :
    2 ≤ (fl.Arg 0).length ∧
    sliceFrom (fl.Arg 0) 2 = some ((fl.Arg 0).drop 2) ∧
    Event.sliceOutOfRange ∉ main w ∧
    (fl.Arg 0 = "0x".toList →
      sliceFrom (fl.Arg 0) 2 = some [] ∧
      (∀ f, stringsContains f [] = true) ∧
      ∀ dircontents last,
        w.stat (datadirOf (home ++ "/.ethereum".toList) fl) = some true →
        w.readDir (datadirOf (home ++ "/.ethereum".toList) fl ++ "/keystore".toList) =
          some dircontents →
        dircontents.getLast? = some last →
        main w = passEvents fl ++
          [.log .debug "input is account hex",
           .stat (datadirOf (home ++ "/.ethereum".toList) fl),
           .log .debug "checking keystore dir",
           .readDir (datadirOf (home ++ "/.ethereum".toList) fl ++ "/keystore".toList)] ++
          openAndSign w g_pass (fl.Arg 1)
            (datadirOf (home ++ "/.ethereum".toList) fl ++ "/keystore".toList ++ "/".toList ++
              last) ∧
        Event.log .error "Account not found" ∉ main w) := by
  have hlen : 2 ≤ (fl.Arg 0).length := length_of_isHexInput _ (hsound _ hdec)
  have hmain := main_eq_resolveKey w home fl g_pass h
  have hres := resolveKey_account w (datadirOf (home ++ "/.ethereum".toList) fl) g_pass
    (fl.Arg 0) (fl.Arg 1) hdec hlen
  have hpe := mem_passEvents fl
  refine ⟨hlen, sliceFrom_two _ hlen, ?_, ?_⟩
  · rw [hmain, hres]
    intro hin
    rcases List.mem_append.1 hin with hin | hin
    · exact absurd (hpe _ hin).2 (by simp)
    · revert hin
      cases w.stat (datadirOf (home ++ "/.ethereum".toList) fl) with
      | none => simp
      | some isDir =>
        cases isDir with
        | false => simp
        | true =>
          cases w.readDir (datadirOf (home ++ "/.ethereum".toList) fl ++ "/keystore".toList) with
          | none => simp
          | some dircontents =>
            cases hl : (dircontents.filter
              (fun f => stringsContains f ((fl.Arg 0).drop 2))).getLast? with
            | none =>
              simp only [hl]
              simp
            | some last =>
              simp only [hl, List.mem_cons, false_or, reduceCtorEq]
              intro hin
              exact openAndSign_events w g_pass (fl.Arg 1) _ _ hin
  · intro h0x
    refine ⟨by rw [h0x]; rfl, stringsContains_empty, ?_⟩
    intro dircontents last hs hr hl
    have hdrop : (fl.Arg 0).drop 2 = [] := by rw [h0x]; rfl
    have hfilter : dircontents.filter (fun f => stringsContains f ((fl.Arg 0).drop 2)) =
        dircontents := by
      rw [hdrop, List.filter_eq_self]
      intro f _
      exact stringsContains_empty f
    have hrun : main w = passEvents fl ++
          [.log .debug "input is account hex",
           .stat (datadirOf (home ++ "/.ethereum".toList) fl),
           .log .debug "checking keystore dir",
           .readDir (datadirOf (home ++ "/.ethereum".toList) fl ++ "/keystore".toList)] ++
          openAndSign w g_pass (fl.Arg 1)
            (datadirOf (home ++ "/.ethereum".toList) fl ++ "/keystore".toList ++ "/".toList ++
              last) := by
      rw [hmain, hres]
      simp only [hs, hr, hfilter, hl]
      simp
    refine ⟨hrun, ?_⟩
    rw [hrun]
    intro hin
    simp only [List.mem_append, List.mem_cons, List.mem_singleton, List.not_mem_nil,
      or_false] at hin
    rcases hin with (hin | hin) | hin
    · exact absurd (hpe _ hin).2 (by simp)
    · simp at hin
    · exact absurd (openAndSign_events w g_pass (fl.Arg 1) _ _ hin) (by simp [OpenEvent])

/-! ## Instances -/

/-- An instance of C3, as amended: the account `aabbcc` with two entries. -/
theorem last_match_selected_witness :
    ∃ last, (sampleListing.filter (fun f => stringsContains f
        ((sampleFlags [] ["0xaabbcc".toList, "req.json".toList]).Arg 0 |>.drop 2))).getLast? =
          some last ∧
      main worldTwoMatches =
        passEvents (sampleFlags [] ["0xaabbcc".toList, "req.json".toList]) ++
        [.log .debug "input is account hex", .stat "/home/u/.ethereum".toList,
         .log .debug "checking keystore dir", .readDir "/home/u/.ethereum/keystore".toList] ++
        openAndSign worldTwoMatches [] "req.json".toList
          ("/home/u/.ethereum/keystore".toList ++ "/".toList ++ last) :=
  last_match_selected worldTwoMatches "/home/u".toList
    (sampleFlags [] ["0xaabbcc".toList, "req.json".toList]) [] sampleListing
    "UTC--1--aabbcc".toList
    ⟨rfl, by decide, rfl, by decide, by decide, by decide⟩
    (by decide) (by decide) (by decide) (by decide) (by decide) (by decide)

/-- C3, as stated, fails: with the entries `UTC--1--aabbcc` and
`UTC--2--aabbcc.bak` both containing `aabbcc`, the first one in listing order is
`UTC--1--aabbcc`, but the run opens `UTC--2--aabbcc.bak` and never the first. -/
theorem first_match_counterexample :
    worldTwoMatches.hexutilDecode "0xaabbcc".toList = true ∧
    worldTwoMatches.readDir "/home/u/.ethereum/keystore".toList = some sampleListing ∧
    sampleListing.find? (fun f => stringsContains f ("0xaabbcc".toList.drop 2)) =
      some "UTC--1--aabbcc".toList ∧
    Event.readFile "/home/u/.ethereum/keystore/UTC--1--aabbcc".toList ∉ main worldTwoMatches ∧
    Event.readFile "/home/u/.ethereum/keystore/UTC--2--aabbcc.bak".toList ∈
      main worldTwoMatches := by
  decide

/-- An instance of C4: the keyfile `key.json`, and the same run with another
value of `-d`. -/
theorem keyfile_argument_used_witness :
    (main worldKeyfile =
        passEvents (sampleFlags "pw".toList ["key.json".toList, "req.json".toList]) ++
        [.log .debug "input is keyfile", .stat "key.json".toList] ++
        openAndSign worldKeyfile "secret".toList "req.json".toList "key.json".toList ∧
      (∀ j p, Event.decryptKey j p ∈ main worldKeyfile →
        worldKeyfile.readFile "key.json".toList = some j) ∧
      (∀ p, Event.stat p ∈ main worldKeyfile → p = "key.json".toList) ∧
      (∀ p, Event.readDir p ∉ main worldKeyfile)) ∧
    mainParsed worldKeyfile "/root/.ethereum".toList
      { sampleFlags "pw".toList ["key.json".toList, "req.json".toList] with
        dir := "/elsewhere".toList } = main worldKeyfile :=
  ⟨(keyfile_argument_used worldKeyfile "/home/u".toList
      (sampleFlags "pw".toList ["key.json".toList, "req.json".toList]) "secret".toList
      ⟨rfl, by decide, rfl, by decide, by decide, by decide⟩ (by decide)).1 (by decide),
   (keyfile_argument_used worldKeyfile "/home/u".toList
      (sampleFlags "pw".toList ["key.json".toList, "req.json".toList]) "secret".toList
      ⟨rfl, by decide, rfl, by decide, by decide, by decide⟩ (by decide)).2.2.2
      "/elsewhere".toList "/root/.ethereum".toList⟩

/-- An instance of C5: the account `112233` has no entry in the keystore. -/
theorem account_not_found_witness :
    (Event.log .error "Account not found" ∈ main worldNoMatch ∨
      Event.log .error "Keystore not found" ∈ main worldNoMatch ∨
      Event.log .error "Keystore is not a directory" ∈ main worldNoMatch) ∧
    exitStatus (main worldNoMatch) = some 1 ∧
    stdoutOf (main worldNoMatch) = [] ∧
    (∀ p, Event.readFile p ∈ main worldNoMatch →
      (sampleFlags [] ["0x112233".toList, "req.json".toList]).passfile ≠ [] ∧
      p = (sampleFlags [] ["0x112233".toList, "req.json".toList]).passfile) ∧
    Event.readPassword ∉ main worldNoMatch ∧
    (∀ j p, Event.decryptKey j p ∉ main worldNoMatch) ∧
    Event.sign ∉ main worldNoMatch :=
  account_not_found worldNoMatch "/home/u".toList
    (sampleFlags [] ["0x112233".toList, "req.json".toList]) []
    ⟨rfl, by decide, rfl, by decide, by decide, by decide⟩ (by decide) (by decide)
    (Or.inr (Or.inr ⟨sampleListing, by decide, by decide⟩))

/-- An instance of C6, as amended: the request file is not given. -/
theorem missing_positional_witness :
    exitStatus (main worldMissingRequest) = some 1 ∧
    stdoutOf (main worldMissingRequest) = [] ∧
    ∀ e ∈ main worldMissingRequest,
      (∃ home fl, worldMissingRequest.userCurrent = some home ∧
        MissingPositional worldMissingRequest home fl ∧ e = .readFile fl.passfile) ∨
      (∃ msg, e = .log .error msg) ∨ e = .exit 1 :=
  missing_positional worldMissingRequest (fun home hu =>
    ⟨sampleFlags [] ["0xaabbcc".toList], by
      cases hu
      exact ⟨by decide, rfl, Or.inr (by decide)⟩⟩)

/-- C6, as stated, fails: the command line `-x` has no positional argument and no
`-h`; the flags do not parse, the usage text is written to standard output and
the run ends with status 2. -/
theorem usage_on_stdout_counterexample :
    worldUndefinedFlag.args = ["-x".toList] ∧
    flagParse (flagDefaults "/home/u/.ethereum".toList) worldUndefinedFlag.args = .failed ∧
    main worldUndefinedFlag =
      [.flagError, .stdout (usageText ++ ['\n']), .printDefaults, .exit 2] ∧
    stdoutOf (main worldUndefinedFlag) = usageText ++ ['\n'] ∧
    stdoutOf (main worldUndefinedFlag) ≠ [] := by
  refine ⟨rfl, by decide, rfl, ?_, ?_⟩
  · simp [show main worldUndefinedFlag =
      [.flagError, .stdout (usageText ++ ['\n']), .printDefaults, .exit 2] from rfl,
      stdoutOf]
  · simp [show main worldUndefinedFlag =
      [.flagError, .stdout (usageText ++ ['\n']), .printDefaults, .exit 2] from rfl,
      stdoutOf]

/-- An instance of C7, as amended: the passphrase comes from the file `pw`. -/
theorem stdout_of_successful_run_witness :
    ∃ home fl g_pass keyfile resultJson,
      worldPassfile.userCurrent = some home ∧
      flagParse (flagDefaults (home ++ "/.ethereum".toList)) worldPassfile.args = .parsed fl ∧
      PassFromFile worldPassfile fl g_pass ∧
      Signed worldPassfile (fl.Arg 1) keyfile resultJson ∧
      stdoutOf (main worldPassfile) = promptText g_pass ++ resultJson ++ ['\n'] :=
  stdout_of_successful_run worldPassfile
    (by
      rintro ⟨home, hu, h⟩
      cases hu
      rcases h with h | ⟨fl, h, hh⟩
      · exact absurd h (by decide)
      · have hfl : ParseResult.parsed
            (sampleFlags "pw".toList ["0xddeeff".toList, "req.json".toList]) =
            ParseResult.parsed fl := by
          rw [← h]
          decide
        cases hfl
        exact absurd hh (by decide))
    (by decide)

/-- C7, as stated, fails: without `-p` the run that ends with status 0 writes the
prompt `pass:` to standard output before the signed request. -/
theorem prompt_on_stdout_counterexample :
    flagParse (flagDefaults "/home/u/.ethereum".toList) worldPrompt.args =
      .parsed (sampleFlags [] ["key.json".toList, "req.json".toList]) ∧
    exitStatus (main worldPrompt) = some 0 ∧
    worldPrompt.marshalJSON (worldPrompt.sign "[1]".toList 7) = .ok "[1]+sig".toList ∧
    stdoutOf (main worldPrompt) = "pass:".toList ++ "[1]+sig".toList ++ ['\n'] ∧
    stdoutOf (main worldPrompt) ≠ "[1]+sig".toList ++ ['\n'] ∧
    Event.stdout "pass:".toList ∈ main worldPrompt :=
  ⟨by decide, by decide, rfl, by decide, by decide, by decide⟩

/-- An instance of C10: the argument `0x` selects the last entry of the listing. -/
theorem hex_argument_slice_witness :
    2 ≤ ((sampleFlags [] ["0x".toList, "req.json".toList]).Arg 0).length ∧
    main worldBarePrefix =
      passEvents (sampleFlags [] ["0x".toList, "req.json".toList]) ++
      [.log .debug "input is account hex", .stat "/home/u/.ethereum".toList,
       .log .debug "checking keystore dir", .readDir "/home/u/.ethereum/keystore".toList] ++
      openAndSign worldBarePrefix [] "req.json".toList
        ("/home/u/.ethereum/keystore".toList ++ "/".toList ++ "UTC--3--ddeeff".toList) ∧
    Event.log .error "Account not found" ∉ main worldBarePrefix :=
  ⟨(hex_argument_slice worldBarePrefix "/home/u".toList
      (sampleFlags [] ["0x".toList, "req.json".toList]) []
      ⟨rfl, by decide, rfl, by decide, by decide, by decide⟩ (fun _ h => h) (by decide)).1,
   ((hex_argument_slice worldBarePrefix "/home/u".toList
      (sampleFlags [] ["0x".toList, "req.json".toList]) []
      ⟨rfl, by decide, rfl, by decide, by decide, by decide⟩ (fun _ h => h) (by decide)).2.2.2
      rfl).2.2 sampleListing "UTC--3--ddeeff".toList (by decide) (by decide) (by decide)⟩

end Signmru
